import Mathlib

/-!
# Antfarm simulation core — verification development

A shallow embedding of the Antfarm ant-colony simulation engine
(`constants.js`, `terrain.js`, `pheromones.js`, `ant.js`, the v12 behavior
module and the v11 colony module) together with theorems checking the
specification's testable properties.

Modelling conventions:
* JavaScript numbers are modelled as `ℚ` (the float claims here — decay
  convergence, rounding of checkpoints — are robust statements about the
  arithmetic, not about binary rounding); typed-array bytes and integer
  counters as `Nat`; grid coordinates as `ℤ` (they can go negative before
  the bounds checks).
* The global `AF` namespace constants (`COLS`, `ROWS`, `SURFACE`, `CELL`)
  are gathered in a `Cfg` record; functions read them the way the source
  destructures `AF`.
* In-place mutation of the single `state` object becomes explicit state
  passing on an `Env`/`AFState` record.
* `Math.random()` draws become explicit oracle streams passed as arguments;
  theorems quantify over all streams.
* JavaScript `v || d` defaulting on falsy values is modelled by the
  `jsOr*` helpers below.
-/

namespace Antfarm

/-- JS `v || d` on numbers: `0` is falsy. -/
def jsOrNat (v d : Nat) : Nat := if v = 0 then d else v

/-- JS `v || d` on rationals: `0` is falsy. -/
def jsOrQ (v d : ℚ) : ℚ := if v = 0 then d else v

/-- JS `v || d` on strings: the empty string is falsy. -/
def jsOrStr (v d : String) : String := if v = "" then d else v

/-- JS `v || d` where `v` may be `undefined` (a field never assigned),
on numeric values: both `undefined` and `0` are falsy. -/
def optOrNat (v : Option Nat) (d : Nat) : Nat :=
  match v with
  | none => d
  | some n => if n = 0 then d else n

/-- JS `v || d` for possibly-undefined rationals. -/
def optOrQ (v : Option ℚ) (d : ℚ) : ℚ :=
  match v with
  | none => d
  | some q => if q = 0 then d else q

/-- JS `v || d` on object references (`null`/`undefined` falsy). -/
def jsOrOpt {α : Type} (v d : Option α) : Option α :=
  match v with
  | none => d
  | some x => some x

/-- JS `x | 0` truncation toward zero. -/
def jsTrunc (q : ℚ) : ℤ := if 0 ≤ q then ⌊q⌋ else ⌈q⌉

/-- JS `Number.prototype.toFixed(p)` followed by unary `+`:
round to `p` decimal places, ties toward `+∞` (ES semantics picks the
larger candidate on ties, which is `⌊x·10^p + 1/2⌋ / 10^p`). -/
def roundTo (p : Nat) (v : ℚ) : ℚ := (round (v * 10 ^ p) : ℤ) / 10 ^ p

/-- The `AF` namespace constants from `constants.js` that the engine reads. -/
structure Cfg where
  COLS : Nat
  ROWS : Nat
  SURFACE : Nat
  CELL : ℚ

/-- The concrete values from `constants.js` (`960/3`, `ceil(680/3)`,
`round(227·0.27)`). -/
def AFconst : Cfg := { COLS := 320, ROWS := 227, SURFACE := 61, CELL := 3 }

/- `AF.ST` — the 10-state machine codes. -/
namespace ST

def IDLE : Nat := 0
def ENTER : Nat := 1
def DIG : Nat := 2
def HAUL : Nat := 3
def FORAGE : Nat := 4
def CARRY : Nat := 5
def EXPLORE : Nat := 6
def REST : Nat := 7
def NURSE : Nat := 8
def HUNGRY : Nat := 9

end ST

/- `AF.BROOD` — brood lifecycle stage codes. -/
namespace BROOD

def EGG : Nat := 0
def LARVA : Nat := 1
def PUPA : Nat := 2

end BROOD

/- `AF.BROOD_TIME` — stage durations in frames. -/
namespace BROOD_TIME

def EGG : Nat := 900
def LARVA : Nat := 1800
def PUPA : Nat := 1200

end BROOD_TIME

/-- `AF.LARVA_FEEDINGS_NEEDED`. -/
def LARVA_FEEDINGS_NEEDED : Nat := 3

/-- A surface food pile or underground food store (`{x, y, amount}`). -/
structure Food where
  x : ℚ
  y : ℚ
  amount : ℚ
deriving DecidableEq

/-- A detected chamber record (v11 `detectChambers` output). -/
structure Chamber where
  x : ℚ
  y : ℚ
  size : Nat
  depth : ℚ
  type : String
deriving DecidableEq

/-- A brood record (egg/larva/pupa) as pushed by the v11 queen egg-laying. -/
structure Brood where
  id : Nat
  stage : Nat
  x : ℚ
  y : ℚ
  age : Nat
  fed : Nat
deriving DecidableEq

/-- A death event pushed on `state._deaths` for particle effects. -/
structure Death where
  x : ℚ
  y : ℚ
  name : String
deriving DecidableEq

/-- The AI-tunable behavioral parameters (`state.tuning`, v11 shape). -/
structure Tuning where
  restThreshold : ℚ
  explorationBias : ℚ
  forageRadius : ℚ
  branchingChance : ℚ
  chamberSizeTarget : ℚ
  antMaxEnergy : ℚ
  queenSpawnRate : Nat
  sandCarryMax : Nat
  nursePriority : Nat
deriving DecidableEq

/-- The colony-goal snapshot built by `updateColonyGoals`. -/
structure Goals where
  shaftDepth : Nat
  targetShaftDepth : Nat
  galleryCount : Nat
  targetGalleries : Nat
  chamberCount : Nat
  targetChambers : Nat
  foodReserves : ℚ
  needsFood : Bool
  exploredArea : Nat
  phase : String
  broodCount : Nat
  hungryLarvae : Nat
  needsNurses : Bool
deriving DecidableEq

/-- An external-directive role shift (`directive.role_shift`); absent
fields read as `0` via `|| 0` in the source, so they are plain `Nat`s. -/
structure RoleShift where
  idle_to_digger : Nat
  idle_to_forager : Nat
  idle_to_explorer : Nat
  idle_to_nurse : Nat
deriving DecidableEq

/-- The externally supplied directive, restricted to the fields the tick
loop itself reads (`focus`, `role_shift`) plus the display strings it
stores; the tuning-patch part is consumed only by `applyDirective`,
which no claim exercises. -/
structure Directive where
  focus : String
  role_shift : Option RoleShift
  narration : String
  insight : String
deriving DecidableEq

/-- An ant record: the union of the fields `AF.ant.create` initializes and
the fields later modules attach dynamically (`maturity`, `carryingFood`,
`feedCount`, `_dead`, the navigation targets).  Dynamically-attached numeric
fields are `Option`-typed because the source reads them through `|| d`
coercions while they may still be `undefined`.  `lastThoughtTime`
(wall-clock `Date.now()`) is outside the model. -/
structure Ant where
  id : Nat
  x : ℚ
  y : ℚ
  vx : ℚ
  vy : ℚ
  state : Nat
  prevState : Nat
  energy : ℚ
  age : Nat
  isQueen : Bool
  carrying : Bool
  carryingSand : Nat
  maxSandCarry : Nat
  heading : ℚ
  digAngle : ℚ
  meanderPhase : ℚ
  meanderFreq : ℚ
  stuck : ℚ
  digCD : Nat
  digCount : Nat
  stateTimer : Nat
  timeSinceRest : Nat
  restDuration : Nat
  pauseTimer : Nat
  role : String
  size : ℚ
  hue : ℚ
  legT : ℚ
  antT : ℚ
  bodyBob : ℚ
  name : String
  lastThought : String
  maturity : Option ℚ
  carryingFood : Option Nat
  feedCount : Option Nat
  dead : Bool
  targetBrood : Option Nat
  targetChamber : Option Nat
deriving DecidableEq

/-- A default ant record (used only as the `getD` fallback when stating
per-index properties of ant lists). -/
instance : Inhabited Ant :=
  ⟨{ id := 0, x := 0, y := 0, vx := 0, vy := 0, state := 0, prevState := 0,
     energy := 0, age := 0, isQueen := false, carrying := false,
     carryingSand := 0, maxSandCarry := 5, heading := 0, digAngle := 0,
     meanderPhase := 0, meanderFreq := 0, stuck := 0, digCD := 0,
     digCount := 0, stateTimer := 0, timeSinceRest := 0, restDuration := 0,
     pauseTimer := 0, role := "idle", size := 4, hue := 0, legT := 0,
     antT := 0, bodyBob := 0, name := "", lastThought := "",
     maturity := none, carryingFood := none, feedCount := none,
     dead := false, targetBrood := none, targetChamber := none }⟩

/-- The part of the colony state that the terrain/pheromone substrate and
the per-ant behavior engine read and write.  The `ants` list and the
`hasQueen` flag live one level up in `AFState`: only the tick orchestrator
touches them (the behavior engine mutates the one ant it was handed, which
the model threads separately). -/
structure Env where
  grid : List Nat
  phTrail : List ℚ
  phFood : List ℚ
  phDig : List ℚ
  foods : List Food
  chambers : List Chamber
  brood : List Brood
  foodStores : List Food
  frame : Nat
  totalDug : Nat
  simDay : Nat
  queenUnderground : Bool
  entranceX : ℤ
  terrainDirty : Bool
  narration : String
  insight : String
  directive : Option Directive
  digPriority : Nat
  tuning : Tuning
  colonyGoals : Option Goals
  deaths : List Death
deriving DecidableEq

/-- The full colony state object (`AF.colony.create` shape). -/
structure AFState extends Env where
  ants : List Ant
  hasQueen : Bool
deriving DecidableEq

/-- Flat row-major index `y * COLS + x` (meaningful once bounds checks
have passed; JS typed arrays silently ignore out-of-range writes, which
`List.set` matches). -/
def gIdx (cfg : Cfg) (x y : ℤ) : Nat := (y * cfg.COLS + x).toNat

namespace terrain

/-- `AF.terrain.cellAt`: out-of-bounds reads return the solid sentinel 255. -/
def cellAt (cfg : Cfg) (e : Env) (x y : ℤ) : Nat :=
  if x < 0 ∨ (cfg.COLS : ℤ) ≤ x ∨ y < 0 ∨ (cfg.ROWS : ℤ) ≤ y then 255
  else e.grid.getD (gIdx cfg x y) 0

/-- `AF.terrain.isSolid`. -/
def isSolid (cfg : Cfg) (e : Env) (x y : ℤ) : Prop :=
  0 < cellAt cfg e x y

instance (cfg : Cfg) (e : Env) (x y : ℤ) : Decidable (isSolid cfg e x y) :=
  Nat.decLt _ _

/-- One neighbor-hardening step of `AF.terrain._reinforce`. -/
def reinforceStep (cfg : Cfg) (x y : ℤ) (e' : Env) (d : ℤ × ℤ) : Env :=
  let nx := x + d.1
  let ny := y + d.2
  if nx < 0 ∨ (cfg.COLS : ℤ) ≤ nx ∨ ny < 0 ∨ (cfg.ROWS : ℤ) ≤ ny then e'
  else
    let ni := gIdx cfg nx ny
    if 0 < e'.grid.getD ni 0 ∧ e'.grid.getD ni 0 < 4 then
      { e' with grid := e'.grid.set ni 4 }
    else e'

/-- `AF.terrain._reinforce`: harden the six neighbor cells above/beside a
freshly cleared cell (hardness raised to 4 when currently in `(0,4)`). -/
def reinforce (cfg : Cfg) (e : Env) (x y : ℤ) : Env :=
  ([(-1, 0), (1, 0), (-1, -1), (1, -1), (0, -1), (0, -2)] : List (ℤ × ℤ)).foldl
    (reinforceStep cfg x y) e

/-- `AF.terrain.dig`: returns the mutated state and the JS return value
(`0` = falsy no-op, `1` = a dig happened). -/
def dig (cfg : Cfg) (e : Env) (x y : ℤ) : Env × Nat :=
  if x < 0 ∨ (cfg.COLS : ℤ) ≤ x ∨ y < 0 ∨ (cfg.ROWS : ℤ) ≤ y then (e, 0)
  else
    let i := gIdx cfg x y
    if e.grid.getD i 0 = 0 then (e, 0)
    else if e.grid.getD i 0 ≤ 1 then
      let e' := { e with
        grid := e.grid.set i 0,
        totalDug := e.totalDug + 1,
        terrainDirty := true }
      (reinforce cfg e' x y, 1)
    else
      ({ e with
        grid := e.grid.set i (e.grid.getD i 0 - 1),
        terrainDirty := true }, 1)

/-- `AF.terrain.ENTRANCE_CLEAR_RADIUS`. -/
def ENTRANCE_CLEAR_RADIUS : ℤ := 2

/-- The `inClearZone` helper captured inside `AF.terrain.gravity` (with the
entrance column fixed at loop entry; the loop body never writes it). -/
def InClearZone (cfg : Cfg) (entranceX tx ty : ℤ) : Prop :=
  0 < entranceX ∧ ty < (cfg.SURFACE : ℤ) ∧ |tx - entranceX| ≤ ENTRANCE_CLEAR_RADIUS

instance (cfg : Cfg) (eX tx ty : ℤ) : Decidable (InClearZone cfg eX tx ty) :=
  instDecidableAnd

/-- One inner-loop body of `AF.terrain.gravity` at cell `(x, y)`; threads the
index into the random stream (consumed only by the both-sides-open slide). -/
def gravityCell (cfg : Cfg) (rnd : Nat → Bool) (x y : ℤ) :
    Env × Nat → Env × Nat := fun ek =>
  let e := ek.1
  let k := ek.2
  let eX := e.entranceX
  let v := e.grid.getD (gIdx cfg x y) 0
  if v = 0 ∨ 2 < v then ek
  else if InClearZone cfg eX x y then
    ({ e with grid := e.grid.set (gIdx cfg x y) 0, terrainDirty := true }, k)
  else if cellAt cfg e x (y + 1) = 0 then
    if InClearZone cfg eX x (y + 1) then ek
    else
      ({ e with
        grid := (e.grid.set (gIdx cfg x (y + 1)) v).set (gIdx cfg x y) 0,
        terrainDirty := true }, k)
  else
    let cl := cellAt cfg e (x - 1) (y + 1) = 0 ∧ cellAt cfg e (x - 1) y = 0
    let cr := cellAt cfg e (x + 1) (y + 1) = 0 ∧ cellAt cfg e (x + 1) y = 0
    if cl ∧ cr then
      if InClearZone cfg eX (x - 1) (y + 1) ∧ InClearZone cfg eX (x + 1) (y + 1) then ek
      else if InClearZone cfg eX (x - 1) (y + 1) then
        ({ e with
          grid := (e.grid.set (gIdx cfg (x + 1) (y + 1)) v).set (gIdx cfg x y) 0,
          terrainDirty := true }, k)
      else if InClearZone cfg eX (x + 1) (y + 1) then
        ({ e with
          grid := (e.grid.set (gIdx cfg (x - 1) (y + 1)) v).set (gIdx cfg x y) 0,
          terrainDirty := true }, k)
      else
        let d : ℤ := if rnd k then -1 else 1
        ({ e with
          grid := (e.grid.set (gIdx cfg (x + d) (y + 1)) v).set (gIdx cfg x y) 0,
          terrainDirty := true }, k + 1)
    else if cl ∧ ¬InClearZone cfg eX (x - 1) (y + 1) then
      ({ e with
        grid := (e.grid.set (gIdx cfg (x - 1) (y + 1)) v).set (gIdx cfg x y) 0,
        terrainDirty := true }, k)
    else if cr ∧ ¬InClearZone cfg eX (x + 1) (y + 1) then
      ({ e with
        grid := (e.grid.set (gIdx cfg (x + 1) (y + 1)) v).set (gIdx cfg x y) 0,
        terrainDirty := true }, k)
    else ek

/-- `AF.terrain.gravity`: loose cells (hardness 1–2) in the band
`[SURFACE − 20, min(ROWS − 2, SURFACE + 2)]` fall, scanned bottom row first,
left to right, with the entrance clear-zone rules. -/
def gravity (cfg : Cfg) (rnd : Nat → Bool) (e : Env) : Env :=
  let yHi := min (cfg.ROWS - 2) (cfg.SURFACE + 2)
  let yLo := cfg.SURFACE - 20
  let ys := (List.range (yHi + 1 - yLo)).map (fun k => yHi - k)
  (ys.foldl
    (fun acc y =>
      (List.range cfg.COLS).foldl
        (fun acc2 x => gravityCell cfg rnd (x : ℤ) (y : ℤ) acc2) acc)
    (e, 0)).1

/-- `AF.terrain.clearEntrance`: zero out loose sand (hardness 1–2) in the
entrance clear zone above the surface; `!entranceX` makes column 0 a no-op. -/
def clearEntrance (cfg : Cfg) (e : Env) : Env :=
  if e.entranceX = 0 ∨ e.entranceX < 0 then e
  else
    let xs := (List.range 5).map (fun k => e.entranceX - ENTRANCE_CLEAR_RADIUS + (k : ℤ))
    let ys := List.range' (cfg.SURFACE - 20) (cfg.SURFACE - (cfg.SURFACE - 20))
    let res := xs.foldl
      (fun (ac : Env × Bool) x =>
        if x < 0 ∨ (cfg.COLS : ℤ) ≤ x then ac
        else
          ys.foldl
            (fun (ac2 : Env × Bool) y =>
              let i := gIdx cfg x (y : ℤ)
              if 0 < ac2.1.grid.getD i 0 ∧ ac2.1.grid.getD i 0 ≤ 2 then
                ({ ac2.1 with grid := ac2.1.grid.set i 0 }, true)
              else ac2)
            ac)
      (e, false)
    if res.2 then { res.1 with terrainDirty := true } else res.1

end terrain

namespace pheromones

/-- Select the typed array `state[mapName]`. -/
inductive Chan
  | trail
  | food
  | dig
deriving DecidableEq

/-- Read the selected channel map. -/
def chanMap (e : Env) : Chan → List ℚ
  | Chan.trail => e.phTrail
  | Chan.food => e.phFood
  | Chan.dig => e.phDig

/-- Write back the selected channel map. -/
def setChanMap (e : Env) (c : Chan) (m : List ℚ) : Env :=
  match c with
  | Chan.trail => { e with phTrail := m }
  | Chan.food => { e with phFood := m }
  | Chan.dig => { e with phDig := m }

/-- `AF.pheromones.set`: deposit, capped at 1.5; out-of-bounds is a no-op. -/
def set (cfg : Cfg) (e : Env) (x y : ℤ) (value : ℚ) (c : Chan) : Env :=
  if 0 ≤ x ∧ x < (cfg.COLS : ℤ) ∧ 0 ≤ y ∧ y < (cfg.ROWS : ℤ) then
    let m := chanMap e c
    setChanMap e c (m.set (gIdx cfg x y) (min (3/2) (m.getD (gIdx cfg x y) 0 + value)))
  else e

/-- `AF.pheromones.get`: out-of-bounds reads return 0. -/
def get (cfg : Cfg) (e : Env) (x y : ℤ) (c : Chan) : ℚ :=
  if 0 ≤ x ∧ x < (cfg.COLS : ℤ) ∧ 0 ≤ y ∧ y < (cfg.ROWS : ℤ) then
    (chanMap e c).getD (gIdx cfg x y) 0
  else 0

/-- One cell of `AF.pheromones.decay` for a channel with retention `r`:
multiply, then snap sub-epsilon values to zero. -/
def decayStep (r v : ℚ) : ℚ := if v * r < 3 / 1000 then 0 else v * r

/-- `AF.pheromones.decay`: per-channel retention 0.993 / 0.996 / 0.99 with
the 0.003 snap.  The source's single loop bound (`phTrail.length`) equals
each map's own length: all three maps are allocated together with
`COLS·ROWS` entries. -/
def decay (e : Env) : Env :=
  { e with
    phTrail := e.phTrail.map (decayStep (993 / 1000)),
    phFood := e.phFood.map (decayStep (996 / 1000)),
    phDig := e.phDig.map (decayStep (99 / 100)) }

end pheromones

/-! ## Generic helper lemmas -/

/-- A fold preserves any invariant its step preserves. -/
lemma foldl_preserve {α β : Type} (P : α → Prop) (f : α → β → α)
    (h : ∀ a b, P a → P (f a b)) :
    ∀ (l : List β) (a : α), P a → P (l.foldl f a) := by
  intro l
  induction l with
  | nil => intro a ha; exact ha
  | cons b t ih => intro a ha; exact ih _ (h a b ha)

/-- A nonzero `getD` read is an in-range read. -/
lemma lt_length_of_getD_ne_zero {l : List Nat} {i : Nat} (h : l.getD i 0 ≠ 0) :
    i < l.length := by
  by_contra hge
  exact h (List.getD_eq_default _ _ (le_of_not_lt hge))

/-- `getD` at an in-range index after `set` at the same index. -/
lemma getD_set_self {α : Type} {l : List α} {i : Nat} (v d : α)
    (h : i < l.length) : (l.set i v).getD i d = v := by
  simp [List.getD_eq_getElem?_getD, List.getElem?_set_self, h]

/-- `getD` is unchanged by `set` at a different index. -/
lemma getD_set_ne {α : Type} {l : List α} {i j : Nat} (v d : α)
    (h : i ≠ j) : (l.set i v).getD j d = l.getD j d := by
  simp [List.getD_eq_getElem?_getD, List.getElem?_set_ne h]

/-- The flat index is injective on in-bounds column coordinates. -/
lemma gIdx_inj (cfg : Cfg) {x1 y1 x2 y2 : ℤ}
    (hx1 : 0 ≤ x1) (hx1' : x1 < (cfg.COLS : ℤ)) (hy1 : 0 ≤ y1)
    (hx2 : 0 ≤ x2) (hx2' : x2 < (cfg.COLS : ℤ)) (hy2 : 0 ≤ y2)
    (h : gIdx cfg x1 y1 = gIdx cfg x2 y2) : x1 = x2 ∧ y1 = y2 := by
  have hC : (0 : ℤ) < cfg.COLS := lt_of_le_of_lt hx1 hx1'
  have n1 : (0 : ℤ) ≤ y1 * cfg.COLS + x1 :=
    add_nonneg (mul_nonneg hy1 (le_of_lt hC)) hx1
  have n2 : (0 : ℤ) ≤ y2 * cfg.COLS + x2 :=
    add_nonneg (mul_nonneg hy2 (le_of_lt hC)) hx2
  have e1 : y1 * cfg.COLS + x1 = y2 * cfg.COLS + x2 := by
    unfold gIdx at h
    omega
  by_cases hyy : y1 = y2
  · subst hyy
    constructor
    · linarith
    · rfl
  · exfalso
    have hdiff : (y1 - y2) * cfg.COLS = x2 - x1 := by ring_nf; linarith
    have h1 : |x2 - x1| < cfg.COLS := by
      rw [abs_lt]
      constructor <;> linarith
    have h2 : (cfg.COLS : ℤ) ≤ |(y1 - y2) * cfg.COLS| := by
      rw [abs_mul, abs_of_pos hC]
      have hone : 1 ≤ |y1 - y2| := Int.one_le_abs (sub_ne_zero.mpr hyy)
      nlinarith
    rw [hdiff] at h2
    linarith

/-! ## Reinforce / dig helper lemmas -/

/-- `_reinforce` only touches `grid`. -/
lemma reinforce_totalDug (cfg : Cfg) (e : Env) (x y : ℤ) :
    (terrain.reinforce cfg e x y).totalDug = e.totalDug := by
  unfold terrain.reinforce
  refine foldl_preserve (fun e' => e'.totalDug = e.totalDug) _ ?_ _ e rfl
  intro a d ha
  unfold terrain.reinforceStep
  dsimp only
  split
  · exact ha
  · split
    · exact ha
    · exact ha

/-- `_reinforce` never writes the center cell. -/
lemma reinforce_grid_center (cfg : Cfg) (e : Env) {x y : ℤ}
    (hx0 : 0 ≤ x) (hx : x < (cfg.COLS : ℤ)) (hy0 : 0 ≤ y) (_hy : y < (cfg.ROWS : ℤ)) :
    (terrain.reinforce cfg e x y).grid.getD (gIdx cfg x y) 0 =
      e.grid.getD (gIdx cfg x y) 0 := by
  unfold terrain.reinforce
  have key : ∀ (l : List (ℤ × ℤ)), (∀ d ∈ l, d ≠ ((0 : ℤ), (0 : ℤ))) →
      ∀ e0 : Env, (l.foldl (terrain.reinforceStep cfg x y) e0).grid.getD (gIdx cfg x y) 0 =
        e0.grid.getD (gIdx cfg x y) 0 := by
    intro l
    induction l with
    | nil => intro _ e0; rfl
    | cons d t ih =>
      intro hd e0
      have hstep : (terrain.reinforceStep cfg x y e0 d).grid.getD (gIdx cfg x y) 0 =
          e0.grid.getD (gIdx cfg x y) 0 := by
        unfold terrain.reinforceStep
        dsimp only
        split
        · rfl
        · rename_i hin
          split
          · push_neg at hin
            obtain ⟨h1, h2, h3, h4⟩ := hin
            apply getD_set_ne
            intro hEq
            have hxy := gIdx_inj cfg h1 h2 h3 hx0 hx hy0 hEq
            obtain ⟨ha, hb⟩ := hxy
            have h5 : d.1 = 0 := by linarith
            have h6 : d.2 = 0 := by linarith
            exact hd d (List.mem_cons_self d t) (Prod.ext h5 h6)
          · rfl
      rw [List.foldl_cons]
      rw [ih (fun d' hd' => hd d' (List.mem_cons_of_mem d hd'))]
      exact hstep
  apply key
  intro d hd
  fin_cases hd <;> decide

/-! ## Terrain initialization and the hardness invariant (C3) -/

namespace terrain

/-- `AF.terrain.init`: procedural fill of the grid (0 above the surface,
noise-derived hardness clamped into `[1,4]` below it), bedrock patches of
hardness 5, and fresh zero pheromone maps.  The `fbm` noise (a sum of
`Math.sin`-hash octaves) enters as an oracle `noise`; the random bedrock
patch draws enter as the list `patches` of `(center, radius)` choices.
The clamp `max(1, min(4, round(1 + d·2.5 + n·1.0)))` bounds every written
value regardless of the oracle. -/
def init (cfg : Cfg) (noise : ℚ → ℚ → ℚ) (patches : List (ℤ × ℤ × ℕ))
    (e : Env) : Env :=
  let base := (List.range (cfg.COLS * cfg.ROWS)).map (fun i =>
    let y := i / cfg.COLS
    let x := i % cfg.COLS
    if y < cfg.SURFACE then 0
    else
      let d : ℚ := ((y : ℚ) - cfg.SURFACE) / ((cfg.ROWS : ℚ) - cfg.SURFACE)
      let n : ℚ := noise ((x : ℚ) * (1/25)) ((y : ℚ) * (1/25)) - 2/5
      (max 1 (min 4 (round (1 + d * (5/2) + n * 1)))).toNat)
  let withPatches := patches.foldl (fun g p =>
    let cx := p.1
    let cy := p.2.1
    let r : ℤ := p.2.2
    ((List.range (2 * p.2.2 + 1)).map (fun a => -r + (a : ℤ))).foldl (fun g dy =>
      ((List.range (2 * p.2.2 + 1)).map (fun a => -r + (a : ℤ))).foldl (fun g dx =>
        if dx * dx + dy * dy ≤ r * r then
          let nx := cx + dx
          let ny := cy + dy
          if 0 ≤ nx ∧ nx < (cfg.COLS : ℤ) ∧ (cfg.SURFACE : ℤ) ≤ ny ∧ ny < (cfg.ROWS : ℤ) then
            g.set (gIdx cfg nx ny) 5
          else g
        else g) g) g) base
  { e with
    grid := withPatches,
    phTrail := List.replicate (cfg.COLS * cfg.ROWS) 0,
    phFood := List.replicate (cfg.COLS * cfg.ROWS) 0,
    phDig := List.replicate (cfg.COLS * cfg.ROWS) 0,
    terrainDirty := true }

end terrain

/-- The C3 invariant: every cell's hardness is at most 5 (hardness is a
`Nat` in the model, so nonnegativity is by type). -/
def GridLe5 (e : Env) : Prop := ∀ b ∈ e.grid, b ≤ 5

instance (e : Env) : Decidable (GridLe5 e) := List.decidableBAll _ e.grid

/-- A single finite terrain operation from the claim: a dig or a gravity
pass (with its random stream). -/
inductive TOp
  | dig (x y : ℤ)
  | grav (rnd : Nat → Bool)

/-- Run one terrain operation. -/
def runOp (cfg : Cfg) (e : Env) : TOp → Env
  | TOp.dig x y => (terrain.dig cfg e x y).1
  | TOp.grav rnd => terrain.gravity cfg rnd e

/-- Run a finite sequence of dig/gravity operations. -/
def runOps (cfg : Cfg) (e : Env) (ops : List TOp) : Env :=
  ops.foldl (runOp cfg) e

lemma le5_set {l : List Nat} {i v : Nat} (h : ∀ b ∈ l, b ≤ 5) (hv : v ≤ 5) :
    ∀ b ∈ l.set i v, b ≤ 5 := by
  intro b hb
  rcases List.mem_or_eq_of_mem_set hb with h' | h'
  · exact h b h'
  · omega

lemma getD_le5 {l : List Nat} {i : Nat} (h : ∀ b ∈ l, b ≤ 5) : l.getD i 0 ≤ 5 := by
  by_cases hi : i < l.length
  · rw [List.getD_eq_getElem l 0 hi]
    exact h _ (List.getElem_mem hi)
  · rw [List.getD_eq_default _ _ (le_of_not_lt hi)]
    norm_num

lemma le5_two_sets {l : List Nat} (h : ∀ b ∈ l, b ≤ 5) {i j v : Nat} (hv : v ≤ 5) :
    ∀ b ∈ (l.set i v).set j 0, b ≤ 5 :=
  le5_set (le5_set h hv) (by norm_num)

lemma reinforce_gridLe5 (cfg : Cfg) (e : Env) (x y : ℤ) (h : GridLe5 e) :
    GridLe5 (terrain.reinforce cfg e x y) := by
  unfold terrain.reinforce
  refine foldl_preserve GridLe5 _ ?_ _ e h
  intro a d ha
  unfold terrain.reinforceStep
  dsimp only
  split
  · exact ha
  · split
    · exact le5_set ha (by norm_num)
    · exact ha

lemma dig_gridLe5 (cfg : Cfg) (e : Env) (x y : ℤ) (h : GridLe5 e) :
    GridLe5 (terrain.dig cfg e x y).1 := by
  unfold terrain.dig
  dsimp only
  split
  · exact h
  · split
    · exact h
    · split
      · exact reinforce_gridLe5 cfg _ x y (le5_set h (by norm_num))
      · exact le5_set h (le_trans (Nat.sub_le _ _) (getD_le5 h))

lemma dig_totalDug_mono (cfg : Cfg) (e : Env) (x y : ℤ) :
    e.totalDug ≤ (terrain.dig cfg e x y).1.totalDug := by
  unfold terrain.dig
  dsimp only
  split
  · exact le_refl _
  · split
    · exact le_refl _
    · split
      · rw [reinforce_totalDug]
        exact Nat.le_succ _
      · exact le_refl _

lemma gravityCell_gridLe5 (cfg : Cfg) (rnd : Nat → Bool) (x y : ℤ)
    (ek : Env × Nat) (h : GridLe5 ek.1) :
    GridLe5 (terrain.gravityCell cfg rnd x y ek).1 := by
  unfold terrain.gravityCell
  dsimp only
  split_ifs <;>
    first
      | exact h
      | exact le5_set h (by norm_num)
      | exact le5_two_sets h (getD_le5 h)

lemma gravityCell_totalDug (cfg : Cfg) (rnd : Nat → Bool) (x y : ℤ)
    (ek : Env × Nat) :
    (terrain.gravityCell cfg rnd x y ek).1.totalDug = ek.1.totalDug := by
  unfold terrain.gravityCell
  dsimp only
  split_ifs <;> rfl

lemma gravity_gridLe5 (cfg : Cfg) (rnd : Nat → Bool) (e : Env) (h : GridLe5 e) :
    GridLe5 (terrain.gravity cfg rnd e) := by
  unfold terrain.gravity
  dsimp only
  refine foldl_preserve (fun ek => GridLe5 ek.1) _ ?_ _ (e, 0) h
  intro a yy ha
  exact foldl_preserve (fun ek => GridLe5 ek.1) _
    (fun a2 xx ha2 => gravityCell_gridLe5 cfg rnd _ _ a2 ha2) _ a ha

lemma gravity_totalDug (cfg : Cfg) (rnd : Nat → Bool) (e : Env) :
    (terrain.gravity cfg rnd e).totalDug = e.totalDug := by
  unfold terrain.gravity
  dsimp only
  refine foldl_preserve (fun ek => ek.1.totalDug = e.totalDug) _ ?_ _ (e, 0) rfl
  intro a yy ha
  refine foldl_preserve (fun ek => ek.1.totalDug = e.totalDug) _ ?_ _ a ha
  intro a2 xx ha2
  rw [gravityCell_totalDug]
  exact ha2

lemma init_gridLe5 (cfg : Cfg) (noise : ℚ → ℚ → ℚ)
    (patches : List (ℤ × ℤ × ℕ)) (e : Env) :
    GridLe5 (terrain.init cfg noise patches e) := by
  unfold terrain.init
  dsimp only [GridLe5]
  refine foldl_preserve (fun g => ∀ b ∈ g, b ≤ 5) _ ?_ patches _ ?_
  · intro g p hg
    refine foldl_preserve (fun g => ∀ b ∈ g, b ≤ 5) _ ?_ _ g hg
    intro g2 dy hg2
    refine foldl_preserve (fun g => ∀ b ∈ g, b ≤ 5) _ ?_ _ g2 hg2
    intro g3 dx hg3
    dsimp only
    split
    · split
      · exact le5_set hg3 (le_refl 5)
      · exact hg3
    · exact hg3
  · intro b hb
    obtain ⟨i, _, rfl⟩ := List.mem_map.mp hb
    split
    · norm_num
    · rw [Int.toNat_le]
      exact max_le (by norm_num) (le_trans (min_le_left _ _) (by norm_num))

/-- Claim C3: starting from a freshly initialized grid (for any noise
oracle and any bedrock patch draws), every finite sequence of dig and
gravity operations keeps every cell's hardness in `[0, 5]` (0 by the `Nat`
representation, 5 by the invariant), and `totalDug` never decreases along
the sequence. -/
theorem terrain_ops_invariant :
    (∀ (cfg : Cfg) (noise : ℚ → ℚ → ℚ) (patches : List (ℤ × ℤ × ℕ)) (e : Env),
      GridLe5 (terrain.init cfg noise patches e)) ∧
    (∀ (cfg : Cfg) (e : Env), GridLe5 e → ∀ ops : List TOp,
      GridLe5 (runOps cfg e ops) ∧ e.totalDug ≤ (runOps cfg e ops).totalDug) := by
  constructor
  · exact init_gridLe5
  · intro cfg e he ops
    induction ops generalizing e with
    | nil => exact ⟨he, le_refl _⟩
    | cons op t ih =>
      have hstep : GridLe5 (runOp cfg e op) ∧ e.totalDug ≤ (runOp cfg e op).totalDug := by
        cases op with
        | dig x y => exact ⟨dig_gridLe5 cfg e x y he, dig_totalDug_mono cfg e x y⟩
        | grav rnd =>
          exact ⟨gravity_gridLe5 cfg rnd e he, le_of_eq (gravity_totalDug cfg rnd e).symm⟩
      have ht := ih _ hstep.1
      exact ⟨ht.1, le_trans hstep.2 ht.2⟩

/-! ## Ant helpers, role shift (C10) and the think-phase prefix (C5) -/

namespace ant

/-- `AF.ant.setThought` (the `Date.now()` timestamp is wall-clock and
outside the model). -/
def setThought (a : Ant) (t : String) : Ant := { a with lastThought := t }

end ant

namespace colony

/-- One ant's treatment inside `AF.colony._applyRoleShift` (v11): queens
are skipped; IDLE/REST ants consume the first nonempty quota in the fixed
digger → forager → explorer → nurse order. -/
def roleShiftAnt (toD toF toE toN : Nat) (a : Ant) :
    Ant × Nat × Nat × Nat × Nat :=
  if a.isQueen then (a, toD, toF, toE, toN)
  else if a.state = ST.IDLE ∨ a.state = ST.REST then
    if 0 < toD then
      (ant.setThought { a with state := ST.ENTER, stateTimer := 0 } "AI assigned: dig",
        toD - 1, toF, toE, toN)
    else if 0 < toF then
      (ant.setThought { a with state := ST.FORAGE, stateTimer := 0 } "AI assigned: forage",
        toD, toF - 1, toE, toN)
    else if 0 < toE then
      (ant.setThought { a with state := ST.EXPLORE, stateTimer := 0 } "AI assigned: explore",
        toD, toF, toE - 1, toN)
    else if 0 < toN then
      (ant.setThought { a with state := ST.NURSE, stateTimer := 0 } "AI assigned: nurse",
        toD, toF, toE, toN - 1)
    else (a, toD, toF, toE, toN)
  else (a, toD, toF, toE, toN)

/-- The `for (const ant of state.ants)` loop of `_applyRoleShift`,
threading the four quota counters. -/
def roleShiftGo (toD toF toE toN : Nat) : List Ant → List Ant
  | [] => []
  | a :: t =>
    let r := roleShiftAnt toD toF toE toN a
    r.1 :: roleShiftGo r.2.1 r.2.2.1 r.2.2.2.1 r.2.2.2.2 t

/-- `AF.colony._applyRoleShift` (v11): absent `role_shift` fields read as
0 through `|| 0`, so the quotas are the record's plain `Nat` fields. -/
def applyRoleShift (s : AFState) (rs : RoleShift) : AFState :=
  { s with
    ants := roleShiftGo rs.idle_to_digger rs.idle_to_forager
      rs.idle_to_explorer rs.idle_to_nurse s.ants }

end colony

namespace behavior

/- v12 behavior tuning constants. -/

def B_REST_MIN : ℚ := 400
def B_REST_MAX : ℚ := 900
def B_REST_DUR_MIN : Nat := 40
def B_REST_DUR_MAX : Nat := 100
def B_HUNGER_THRESHOLD : ℚ := 350
def B_HUNGER_CRITICAL : ℚ := 150

/-- `_changeState` (v12): records the previous state and clears the
per-state counters and navigation targets. -/
def changeState (a : Ant) (newState : Nat) : Ant :=
  { a with prevState := a.state, state := newState, stateTimer := 0,
           stuck := 0, targetBrood := none, targetChamber := none }

/-- `restMinAdj` as computed at the top of `_think` (v12):
`B_REST_MIN * (1 + (restThreshold - 20) / 100)` with the `|| 20` default. -/
def restMinAdj (t : Tuning) : ℚ :=
  B_REST_MIN * (1 + (jsOrQ t.restThreshold 20 - 20) / 100)

/-- The `_think` phase (v12) modelled exactly through its first two
priority rules, which is where the hunger claim is decided:

1. the rest-need check, whose randomized window uses the draw `r1` and
   whose rest duration uses the draw `r2`;
2. the hunger check (drop carried food, switch to HUNGRY);

everything after them (the stuck-escape teleport and the per-state switch)
is the uninterpreted continuation `tail`. -/
def think (t : Tuning) (r1 r2 : ℚ) (tail : Ant → Ant) (a : Ant) : Ant :=
  if (a.state ≠ ST.REST ∧
        restMinAdj t + r1 * (B_REST_MAX - restMinAdj t) < (a.timeSinceRest : ℚ)) ∧
      (a.energy < 600 ∨ B_REST_MAX < (a.timeSinceRest : ℚ)) then
    ant.setThought
      { changeState a ST.REST with
        restDuration := B_REST_DUR_MIN +
          ((r2 * ((B_REST_DUR_MAX : ℚ) - (B_REST_DUR_MIN : ℚ))).floor).toNat }
      "Need to rest"
  else if (a.state ≠ ST.REST ∧ a.state ≠ ST.HUNGRY ∧ a.isQueen = false) ∧
      a.energy < B_HUNGER_THRESHOLD then
    let a1 := if a.carrying then { a with carrying := false } else a
    let a2 := changeState a1 ST.HUNGRY
    if a.energy < B_HUNGER_CRITICAL then ant.setThought a2 "Starving!"
    else ant.setThought a2 "Need food"
  else tail a

end behavior

/-- Claim C10: an external-directive role shift changes the state only of
non-queen agents currently in IDLE or REST, and leaves the terrain grid,
the three pheromone fields and the frame / totalDug / simDay counters
unchanged. -/
theorem roleShift_frame (s : AFState) (rs : RoleShift) :
    ((colony.applyRoleShift s rs).ants.length = s.ants.length ∧
      ∀ i : Nat,
        ((colony.applyRoleShift s rs).ants.getD i default).state ≠
            (s.ants.getD i default).state →
          (s.ants.getD i default).isQueen = false ∧
            ((s.ants.getD i default).state = ST.IDLE ∨
              (s.ants.getD i default).state = ST.REST)) ∧
    (colony.applyRoleShift s rs).grid = s.grid ∧
    (colony.applyRoleShift s rs).phTrail = s.phTrail ∧
    (colony.applyRoleShift s rs).phFood = s.phFood ∧
    (colony.applyRoleShift s rs).phDig = s.phDig ∧
    (colony.applyRoleShift s rs).frame = s.frame ∧
    (colony.applyRoleShift s rs).totalDug = s.totalDug ∧
    (colony.applyRoleShift s rs).simDay = s.simDay := by
  have hgo_len : ∀ (l : List Ant) (toD toF toE toN : Nat),
      (colony.roleShiftGo toD toF toE toN l).length = l.length := by
    intro l
    induction l with
    | nil => intro toD toF toE toN; rfl
    | cons a t ih => intro toD toF toE toN; simp [colony.roleShiftGo, ih]
  have hant : ∀ (toD toF toE toN : Nat) (a : Ant),
      (colony.roleShiftAnt toD toF toE toN a).1 = a ∨
        (a.isQueen = false ∧ (a.state = ST.IDLE ∨ a.state = ST.REST)) := by
    intro toD toF toE toN a
    unfold colony.roleShiftAnt
    split
    · exact Or.inl rfl
    · rename_i hq
      split
      · rename_i hst
        right
        exact ⟨by simpa using hq, hst⟩
      · exact Or.inl rfl
  have hgo : ∀ (l : List Ant) (toD toF toE toN : Nat) (i : Nat),
      (colony.roleShiftGo toD toF toE toN l).getD i default = l.getD i default ∨
        ((l.getD i default).isQueen = false ∧
          ((l.getD i default).state = ST.IDLE ∨ (l.getD i default).state = ST.REST)) := by
    intro l
    induction l with
    | nil => intro toD toF toE toN i; exact Or.inl rfl
    | cons a t ih =>
      intro toD toF toE toN i
      cases i with
      | zero =>
        simp only [colony.roleShiftGo, List.getD_cons_zero]
        rcases hant toD toF toE toN a with h | h
        · exact Or.inl h
        · exact Or.inr h
      | succ n =>
        simp only [colony.roleShiftGo, List.getD_cons_succ]
        exact ih _ _ _ _ n
  unfold colony.applyRoleShift
  refine ⟨⟨hgo_len s.ants _ _ _ _, ?_⟩, rfl, rfl, rfl, rfl, rfl, rfl, rfl⟩
  intro i hne
  rcases hgo s.ants rs.idle_to_digger rs.idle_to_forager rs.idle_to_explorer
    rs.idle_to_nurse i with h | h
  · exact absurd (congrArg Ant.state h) hne
  · exact h

/-! ## The tick orchestrator (C4, C6) -/

/-- JS `m < c` where `m` may be `undefined`: `undefined < c` is `false`. -/
def jsLtOpt (m : Option ℚ) (c : ℚ) : Bool :=
  match m with
  | none => false
  | some v => decide (v < c)

namespace behavior

/-- `AF.behavior.update` (v12) for one ant, modelled exactly through the
death decision.  Queens are delegated wholesale to `_queenBehavior`
(the oracle `queenBeh`, which in the source never drains energy and never
sets `_dead`).  For a worker, the cooldown/age/timer bookkeeping and the
energy drain with its death check are translated from the source; the code
after a surviving drain (micro-pause, sense, think, act, physics, role
update) is the continuation oracle `afterAlive`.  Both oracles read and
write the environment and their own ant — the source behavior engine
never touches the ant list or `hasQueen`; only `Colony.tick` does. -/
def update (queenBeh afterAlive : Env → Ant → Env × Ant) (env : Env) (a : Ant) :
    Env × Ant :=
  if a.isQueen then queenBeh env a
  else
    let a1 := { a with
      digCD := if 0 < a.digCD then a.digCD - 1 else a.digCD,
      age := a.age + 1, stateTimer := a.stateTimer + 1,
      timeSinceRest := a.timeSinceRest + 1,
      energy := a.energy - 1/10 }
    if a1.energy ≤ 0 then (env, { a1 with energy := 0, dead := true })
    else afterAlive env a1

end behavior

namespace colony

/-- The `Math.min(1.0, maturity + 0.00003)` aging step (only reached when
`maturity` is defined, by the `maturity < 1.0` guard). -/
def maturityBump (m : Option ℚ) : Option ℚ :=
  match m with
  | none => none
  | some v => some (min 1 (v + 3/100000))

/-- The maturity-aging line of the tick's ant loop:
`if (!ant.isQueen && ant.maturity < 1.0) ant.maturity = min(1, m + 0.00003)`. -/
def maturityStep (a : Ant) : Ant :=
  if a.isQueen = false ∧ jsLtOpt a.maturity 1 = true then
    { a with maturity := maturityBump a.maturity }
  else a

/-- The ant-update loop of `AF.colony.tick` (v11): iterate from the last
index down to 0 (the head of the list is processed last), update each ant,
age its maturity, and splice it out if its update marked it dead —
recording a death event and clearing the queen flag when the dead ant is
the queen. -/
def antLoopGo (queenBeh afterAlive : Env → Ant → Env × Ant) :
    List Ant → Env → Bool → List Ant × Env × Bool
  | [], env, hq => ([], env, hq)
  | a :: t, env, hq =>
    let rt := antLoopGo queenBeh afterAlive t env hq
    let ra := behavior.update queenBeh afterAlive rt.2.1 a
    let a2 := maturityStep ra.2
    if a2.dead then
      (rt.1,
        { ra.1 with deaths := ra.1.deaths ++ [{ x := a2.x, y := a2.y, name := a2.name }] },
        if a2.isQueen then false else rt.2.2)
    else (a2 :: rt.1, ra.1, rt.2.2)

/-- The ant phase of the tick on the full colony state. -/
def antLoop (queenBeh afterAlive : Env → Ant → Env × Ant) (s : AFState) : AFState :=
  let r := antLoopGo queenBeh afterAlive s.ants s.toEnv s.hasQueen
  { toEnv := r.2.1, ants := r.1, hasQueen := r.2.2 }

/-- The queen egg-laying block of `AF.colony.tick` (v11): gated on the
spawn-rate cadence, a live queen, the population cap 80, and food (or a
small brood buffer); the egg position draws are `r1, r2`, and the
module-level `_nextBroodId` counter is the explicit `nextBroodId`. -/
def queenLaysEgg (cfg : Cfg) (r1 r2 : ℚ) (nextBroodId : Nat) (s : AFState) : AFState :=
  let spawnRate := jsOrNat s.tuning.queenSpawnRate 1800
  let totalPop := s.ants.length + s.brood.length
  if s.frame % spawnRate = 0 ∧ s.hasQueen = true ∧ totalPop < 80 then
    match s.ants.find? (fun a => a.isQueen) with
    | some queen =>
      let foodAvailable := (s.foodStores.map Food.amount).sum +
        (s.foods.map Food.amount).sum
      if 0 < foodAvailable ∨ s.brood.length < 3 then
        let eggX := queen.x + (r1 - 1/2) * 8
        let eggY := queen.y + (r2 - 1/2) * 6
        let egx := jsTrunc (eggX / cfg.CELL)
        let egy := jsTrunc (eggY / cfg.CELL)
        let pos : ℚ × ℚ :=
          if terrain.isSolid cfg s.toEnv egx egy then (queen.x, queen.y)
          else (eggX, eggY)
        { s with
          brood := s.brood ++
            [{ id := nextBroodId, stage := BROOD.EGG, x := pos.1, y := pos.2,
               age := 0, fed := 0 }] }
      else s
    | none => s
  else s

/-- One brood record's treatment in the brood-development loop of
`AF.colony.tick` (v11), after its `age++`: egg hatch, feeding-gated
pupation, unfed-larva death past double the larval timer, and pupa
emergence as a new adult (built by the `create` oracle — `AF.ant.create`
with its random draws, indexed here by the brood id — then given maturity
0 and energy `700 + r·200`). -/
def broodStep (create : Nat → ℚ → ℚ → Ant) (babyR : Nat → ℚ) (b : Brood) :
    Option Brood × Option Ant :=
  let b1 := { b with age := b.age + 1 }
  if b1.stage = BROOD.EGG ∧ BROOD_TIME.EGG ≤ b1.age then
    (some { b1 with stage := BROOD.LARVA, age := 0, fed := 0 }, none)
  else if b1.stage = BROOD.LARVA then
    let b2 := if BROOD_TIME.LARVA ≤ b1.age ∧ LARVA_FEEDINGS_NEEDED ≤ b1.fed then
        { b1 with stage := BROOD.PUPA, age := 0 }
      else b1
    if BROOD_TIME.LARVA * 2 < b2.age ∧ b2.fed < LARVA_FEEDINGS_NEEDED then
      (none, none)
    else (some b2, none)
  else if b1.stage = BROOD.PUPA ∧ BROOD_TIME.PUPA ≤ b1.age then
    (none, some { create b1.id b1.x b1.y with
      maturity := some 0, energy := 700 + babyR b1.id * 200 })
  else (some b1, none)

/-- The brood loop, iterated from the last index down (so the spawns of
later list elements are pushed first); survivors keep their list order. -/
def broodPhaseGo (create : Nat → ℚ → ℚ → Ant) (babyR : Nat → ℚ) :
    List Brood → List Brood × List Ant
  | [] => ([], [])
  | b :: t =>
    let rt := broodPhaseGo create babyR t
    let rb := broodStep create babyR b
    (rb.1.toList ++ rt.1, rt.2 ++ rb.2.toList)

/-- The brood-development pass of `AF.colony.tick` (v11) on the colony
state: advance every brood record and append emerged adults to the ant
list. -/
def broodPhase (create : Nat → ℚ → ℚ → Ant) (babyR : Nat → ℚ)
    (s : AFState) : AFState :=
  let r := broodPhaseGo create babyR s.brood
  { s with brood := r.1, ants := s.ants ++ r.2 }

/-- Replace the environment part of the colony state. -/
def withEnv (s : AFState) (e : Env) : AFState := { s with toEnv := e }

/-- The oracles a tick consumes: the two behavior-engine continuations,
the goal recomputation (typed by its write-set: `colonyGoals`,
`digPriority`, `queenUnderground`), chamber detection + type assignment
(write-set: `chambers`), ant creation with its random draws, the
brood-energy draw, the gravity slide draws, and the egg position draws. -/
structure TickOracles where
  queenBeh : Env → Ant → Env × Ant
  afterAlive : Env → Ant → Env × Ant
  goals : AFState → Option Goals × Nat × Bool
  chambers : AFState → List Chamber
  create : Nat → ℚ → ℚ → Ant
  babyR : Nat → ℚ
  gravR : Nat → Bool
  eggR1 : ℚ
  eggR2 : ℚ

/-- Write back the `updateColonyGoals` write-set. -/
def applyGoals (s : AFState) (g : Option Goals × Nat × Bool) : AFState :=
  { s with colonyGoals := g.1, digPriority := g.2.1, queenUnderground := g.2.2 }

/-- Tick phase: `state.frame++`. -/
def tickFrame (s : AFState) : AFState := { s with frame := s.frame + 1 }

/-- Tick phase: goal recomputation every 120 frames. -/
def tickGoals (o : TickOracles) (s : AFState) : AFState :=
  if s.frame % 120 = 0 then applyGoals s (o.goals s) else s

/-- Tick phase: re-apply the directive's role shift every 300 frames. -/
def tickRoleShift (s : AFState) : AFState :=
  if s.frame % 300 = 0 then
    match s.directive with
    | some d =>
      match d.role_shift with
      | some rs => applyRoleShift s rs
      | none => s
    | none => s
  else s

/-- Tick phase: pheromone decay every 8 frames. -/
def tickDecay (s : AFState) : AFState :=
  if s.frame % 8 = 0 then withEnv s (pheromones.decay s.toEnv) else s

/-- Tick phase: gravity every 4 frames. -/
def tickGravity (cfg : Cfg) (rnd : Nat → Bool) (s : AFState) : AFState :=
  if s.frame % 4 = 0 then withEnv s (terrain.gravity cfg rnd s.toEnv) else s

/-- Tick phase: entrance clearing every 8 frames. -/
def tickClear (cfg : Cfg) (s : AFState) : AFState :=
  if s.frame % 8 = 0 then withEnv s (terrain.clearEntrance cfg s.toEnv) else s

/-- Tick phase: advance the day counter every 18000 frames. -/
def tickDay (s : AFState) : AFState :=
  if s.frame % 18000 = 0 then { s with simDay := s.simDay + 1 } else s

/-- Tick phase: chamber detection and type assignment every 300 frames. -/
def tickChambers (o : TickOracles) (s : AFState) : AFState :=
  if s.frame % 300 = 0 then { s with chambers := o.chambers s } else s

/-- Tick phase: prune depleted surface food and food stores. -/
def tickPrune (s : AFState) : AFState :=
  { s with
    foods := s.foods.filter (fun f => 0 < f.amount),
    foodStores := s.foodStores.filter (fun f => 0 < f.amount) }

/-- `AF.colony.tick` (v11): the fixed per-tick order — frame advance,
periodic goal recomputation (every 120), periodic directive role-shift
re-application (every 300), pheromone decay (every 8), gravity (every 4),
entrance clearing (every 8), the ant loop, queen egg-laying, the brood
pass, the day counter (every 18000), chamber detection (every 300), and
pruning of depleted food entries. -/
def tick (cfg : Cfg) (o : TickOracles) (nextBroodId : Nat) (s : AFState) : AFState :=
  tickPrune (tickChambers o (tickDay
    (broodPhase o.create o.babyR
      (queenLaysEgg cfg o.eggR1 o.eggR2 nextBroodId
        (antLoop o.queenBeh o.afterAlive
          (tickClear cfg (tickGravity cfg o.gravR (tickDecay
            (tickRoleShift (tickGoals o (tickFrame s)))))))))))

end colony

/-! ## Dead-agent removal (C4): helper lemmas -/

lemma update_id (qB aA : Env → Ant → Env × Ant)
    (hqB : ∀ env b, ((qB env b).2).id = b.id)
    (haA : ∀ env b, ((aA env b).2).id = b.id)
    (env : Env) (a : Ant) :
    ((behavior.update qB aA env a).2).id = a.id := by
  unfold behavior.update
  split
  · exact hqB env a
  · dsimp only
    split
    · rfl
    · exact haA env _

lemma update_worker_dead (qB aA : Env → Ant → Env × Ant) (env : Env) (a : Ant)
    (hq : a.isQueen = false) (he : a.energy ≤ 1/10) :
    ((behavior.update qB aA env a).2).dead = true := by
  simp only [behavior.update]
  rw [if_neg (by rw [hq]; exact Bool.false_ne_true)]
  split
  · rfl
  · rename_i hcon
    exfalso
    apply hcon
    show a.energy - 1/10 ≤ 0
    linarith

lemma maturityStep_id (a : Ant) : (colony.maturityStep a).id = a.id := by
  unfold colony.maturityStep
  split <;> rfl

lemma maturityStep_dead (a : Ant) : (colony.maturityStep a).dead = a.dead := by
  unfold colony.maturityStep
  split <;> rfl

lemma maturityStep_isQueen (a : Ant) : (colony.maturityStep a).isQueen = a.isQueen := by
  unfold colony.maturityStep
  split <;> rfl

/-- Every survivor of the ant loop descends from a list element whose
update (at the environment it saw) did not mark it dead. -/
lemma antLoopGo_src (qB aA : Env → Ant → Env × Ant)
    (hqB : ∀ env b, ((qB env b).2).id = b.id)
    (haA : ∀ env b, ((aA env b).2).id = b.id) :
    ∀ (l : List Ant) (env : Env) (hq : Bool) (c : Ant),
      c ∈ (colony.antLoopGo qB aA l env hq).1 →
      ∃ b ∈ l, c.id = b.id ∧
        ∃ env', ((behavior.update qB aA env' b).2).dead = false := by
  intro l
  induction l with
  | nil => intro env hq c hc; exact absurd hc (List.not_mem_nil c)
  | cons a t ih =>
    intro env hq c hc
    simp only [colony.antLoopGo] at hc
    by_cases hd : (colony.maturityStep
        (behavior.update qB aA (colony.antLoopGo qB aA t env hq).2.1 a).2).dead = true
    · rw [if_pos hd] at hc
      obtain ⟨b, hb, hcb⟩ := ih env hq c hc
      exact ⟨b, List.mem_cons_of_mem a hb, hcb⟩
    · rw [if_neg hd] at hc
      rcases List.mem_cons.mp hc with heq | hct
      · subst heq
        refine ⟨a, List.mem_cons_self a t, ?_, ?_⟩
        · rw [maturityStep_id, update_id qB aA hqB haA]
        · refine ⟨(colony.antLoopGo qB aA t env hq).2.1, ?_⟩
          rw [maturityStep_dead] at hd
          simpa using hd
      · obtain ⟨b, hb, hcb⟩ := ih env hq c hct
        exact ⟨b, List.mem_cons_of_mem a hb, hcb⟩

/-- If a queen whose behavior marks her dead is in the list, the ant loop
clears the queen flag. -/
lemma antLoopGo_queenDead (qB aA : Env → Ant → Env × Ant) :
    ∀ (l : List Ant) (env : Env) (hq : Bool) (q : Ant), q ∈ l →
      q.isQueen = true →
      (∀ env', ((qB env' q).2).isQueen = true) →
      (∀ env', ((qB env' q).2).dead = true) →
      (colony.antLoopGo qB aA l env hq).2.2 = false := by
  intro l
  induction l with
  | nil => intro env hq q hql; exact absurd hql (List.not_mem_nil q)
  | cons a t ih =>
    intro env hq q hql hqq hqBq hqBd
    simp only [colony.antLoopGo]
    rcases List.mem_cons.mp hql with heq | hqt
    · subst heq
      have hupd : behavior.update qB aA (colony.antLoopGo qB aA t env hq).2.1 q =
          qB (colony.antLoopGo qB aA t env hq).2.1 q := by
        unfold behavior.update
        rw [if_pos hqq]
      have hdead : (colony.maturityStep
          (behavior.update qB aA (colony.antLoopGo qB aA t env hq).2.1 q).2).dead = true := by
        rw [maturityStep_dead, hupd]
        exact hqBd _
      rw [if_pos hdead]
      dsimp only
      rw [if_pos (by
        rw [maturityStep_isQueen, hupd]
        exact hqBq _)]
    · have hflag := ih env hq q hqt hqq hqBq hqBd
      by_cases hd : (colony.maturityStep
          (behavior.update qB aA (colony.antLoopGo qB aA t env hq).2.1 a).2).dead = true
      · rw [if_pos hd]
        dsimp only
        split
        · rfl
        · exact hflag
      · rw [if_neg hd]
        exact hflag

namespace colony

lemma roleShiftAnt_fields (toD toF toE toN : Nat) (a : Ant) :
    ((roleShiftAnt toD toF toE toN a).1.id = a.id ∧
      (roleShiftAnt toD toF toE toN a).1.isQueen = a.isQueen ∧
      (roleShiftAnt toD toF toE toN a).1.energy = a.energy) ∧
    (a.isQueen = true → (roleShiftAnt toD toF toE toN a).1 = a) := by
  unfold roleShiftAnt ant.setThought
  split_ifs with h1 <;>
    first
      | exact ⟨⟨rfl, rfl, rfl⟩, fun _ => rfl⟩
      | exact ⟨⟨rfl, rfl, rfl⟩, fun hq => absurd hq h1⟩

lemma roleShiftGo_map_id : ∀ (l : List Ant) (toD toF toE toN : Nat),
    (roleShiftGo toD toF toE toN l).map Ant.id = l.map Ant.id := by
  intro l
  induction l with
  | nil => intro _ _ _ _; rfl
  | cons a t ih =>
    intro toD toF toE toN
    simp only [roleShiftGo, List.map_cons]
    rw [(roleShiftAnt_fields toD toF toE toN a).1.1, ih]

lemma roleShiftGo_exists : ∀ (l : List Ant) (toD toF toE toN : Nat) (a : Ant),
    a ∈ l → ∃ a' ∈ roleShiftGo toD toF toE toN l,
      a'.id = a.id ∧ a'.isQueen = a.isQueen ∧ a'.energy = a.energy := by
  intro l
  induction l with
  | nil => intro _ _ _ _ a ha; exact absurd ha (List.not_mem_nil a)
  | cons b t ih =>
    intro toD toF toE toN a ha
    rcases List.mem_cons.mp ha with heq | hat
    · subst heq
      exact ⟨(roleShiftAnt toD toF toE toN a).1,
        List.mem_cons_self _ _, (roleShiftAnt_fields toD toF toE toN a).1⟩
    · obtain ⟨a', ha', hfields⟩ := ih _ _ _ _ a hat
      exact ⟨a', List.mem_cons_of_mem _ ha', hfields⟩

lemma roleShiftGo_queen : ∀ (l : List Ant) (toD toF toE toN : Nat) (q : Ant),
    q ∈ l → q.isQueen = true → q ∈ roleShiftGo toD toF toE toN l := by
  intro l
  induction l with
  | nil => intro _ _ _ _ q hq; exact absurd hq (List.not_mem_nil q)
  | cons b t ih =>
    intro toD toF toE toN q hql hqq
    rcases List.mem_cons.mp hql with heq | hqt
    · subst heq
      have : (roleShiftAnt toD toF toE toN q).1 = q :=
        (roleShiftAnt_fields toD toF toE toN q).2 hqq
      rw [show roleShiftGo toD toF toE toN (q :: t) =
        (roleShiftAnt toD toF toE toN q).1 ::
          roleShiftGo (roleShiftAnt toD toF toE toN q).2.1
            (roleShiftAnt toD toF toE toN q).2.2.1
            (roleShiftAnt toD toF toE toN q).2.2.2.1
            (roleShiftAnt toD toF toE toN q).2.2.2.2 t from rfl, this]
      exact List.mem_cons_self q _
    · exact List.mem_cons_of_mem _ (ih _ _ _ _ q hqt hqq)

/- Tick-phase frame lemmas: which fields each phase leaves unchanged. -/

lemma tickFrame_ants (s : AFState) : (tickFrame s).ants = s.ants := rfl

lemma tickFrame_hasQueen (s : AFState) : (tickFrame s).hasQueen = s.hasQueen := rfl

lemma tickGoals_ants (o : TickOracles) (s : AFState) :
    (tickGoals o s).ants = s.ants := by
  unfold tickGoals applyGoals
  split <;> rfl

lemma tickGoals_hasQueen (o : TickOracles) (s : AFState) :
    (tickGoals o s).hasQueen = s.hasQueen := by
  unfold tickGoals applyGoals
  split <;> rfl

lemma tickRoleShift_map_id (s : AFState) :
    (tickRoleShift s).ants.map Ant.id = s.ants.map Ant.id := by
  unfold tickRoleShift
  split
  · split
    · split
      · unfold applyRoleShift
        exact roleShiftGo_map_id s.ants _ _ _ _
      · rfl
    · rfl
  · rfl

lemma tickRoleShift_exists (s : AFState) (a : Ant) (ha : a ∈ s.ants) :
    ∃ a' ∈ (tickRoleShift s).ants,
      a'.id = a.id ∧ a'.isQueen = a.isQueen ∧ a'.energy = a.energy := by
  unfold tickRoleShift
  split
  · split
    · split
      · unfold applyRoleShift
        exact roleShiftGo_exists s.ants _ _ _ _ a ha
      · exact ⟨a, ha, rfl, rfl, rfl⟩
    · exact ⟨a, ha, rfl, rfl, rfl⟩
  · exact ⟨a, ha, rfl, rfl, rfl⟩

lemma tickRoleShift_queen (s : AFState) (q : Ant) (hql : q ∈ s.ants)
    (hqq : q.isQueen = true) : q ∈ (tickRoleShift s).ants := by
  unfold tickRoleShift
  split
  · split
    · split
      · unfold applyRoleShift
        exact roleShiftGo_queen s.ants _ _ _ _ q hql hqq
      · exact hql
    · exact hql
  · exact hql

lemma tickDecay_ants (s : AFState) : (tickDecay s).ants = s.ants := by
  unfold tickDecay withEnv
  split <;> rfl

lemma tickGravity_ants (cfg : Cfg) (rnd : Nat → Bool) (s : AFState) :
    (tickGravity cfg rnd s).ants = s.ants := by
  unfold tickGravity withEnv
  split <;> rfl

lemma tickClear_ants (cfg : Cfg) (s : AFState) :
    (tickClear cfg s).ants = s.ants := by
  unfold tickClear withEnv
  split <;> rfl

lemma queenLaysEgg_ants (cfg : Cfg) (r1 r2 : ℚ) (n : Nat) (s : AFState) :
    (queenLaysEgg cfg r1 r2 n s).ants = s.ants := by
  simp only [queenLaysEgg]
  repeat' split
  all_goals rfl

lemma queenLaysEgg_hasQueen (cfg : Cfg) (r1 r2 : ℚ) (n : Nat) (s : AFState) :
    (queenLaysEgg cfg r1 r2 n s).hasQueen = s.hasQueen := by
  simp only [queenLaysEgg]
  repeat' split
  all_goals rfl

lemma tickDay_ants (s : AFState) : (tickDay s).ants = s.ants := by
  unfold tickDay
  split <;> rfl

lemma tickDay_hasQueen (s : AFState) : (tickDay s).hasQueen = s.hasQueen := by
  unfold tickDay
  split <;> rfl

lemma tickChambers_ants (o : TickOracles) (s : AFState) :
    (tickChambers o s).ants = s.ants := by
  unfold tickChambers
  split <;> rfl

lemma tickChambers_hasQueen (o : TickOracles) (s : AFState) :
    (tickChambers o s).hasQueen = s.hasQueen := by
  unfold tickChambers
  split <;> rfl

lemma tickPrune_ants (s : AFState) : (tickPrune s).ants = s.ants := rfl

lemma tickPrune_hasQueen (s : AFState) : (tickPrune s).hasQueen = s.hasQueen := rfl

lemma broodStep_spawn (create : Nat → ℚ → ℚ → Ant) (babyR : Nat → ℚ)
    (b : Brood) (sp : Ant) (h : (broodStep create babyR b).2 = some sp) :
    ∃ i x y, sp.id = (create i x y).id := by
  unfold broodStep at h
  dsimp only at h
  split_ifs at h
  simp only [Option.some.injEq] at h
  subst h
  exact ⟨{ b with age := b.age + 1 }.id, b.x, b.y, rfl⟩

lemma broodPhaseGo_spawn (create : Nat → ℚ → ℚ → Ant) (babyR : Nat → ℚ) :
    ∀ (L : List Brood) (sp : Ant), sp ∈ (broodPhaseGo create babyR L).2 →
      ∃ i x y, sp.id = (create i x y).id := by
  intro L
  induction L with
  | nil => intro sp hsp; exact absurd hsp (List.not_mem_nil sp)
  | cons b t ih =>
    intro sp hsp
    rcases List.mem_append.mp hsp with hl | hr
    · exact ih sp hl
    · rcases ho : (broodStep create babyR b).2 with _ | sp'
      · rw [ho] at hr
        simp at hr
      · rw [ho] at hr
        simp only [Option.toList_some, List.mem_singleton] at hr
        subst hr
        exact broodStep_spawn create babyR b sp ho

end colony

/-- Claim C4: an agent whose energy drain reaches 0 is marked dead by its
update and the same tick removes it from the agent list; and if the dead
agent was the queen, `hasQueen` becomes false.  The behavior-engine
continuations are universally quantified oracles constrained only to
preserve the ant's identity fields (which the source never rewrites), and
newly emerged adults carry fresh ids from the id counter. -/
theorem tick_removes_dead (cfg : Cfg) (o : colony.TickOracles) (nbi : Nat)
    (s : AFState) (a : Ant)
    (ha : a ∈ s.ants) (hqa : a.isQueen = false) (he : a.energy ≤ 1/10)
    (hid : (s.ants.map Ant.id).Nodup)
    (hqB : ∀ env b, ((o.queenBeh env b).2).id = b.id)
    (haA : ∀ env b, ((o.afterAlive env b).2).id = b.id)
    (hcr : ∀ i x y, (o.create i x y).id ≠ a.id) :
    (∀ env, ((behavior.update o.queenBeh o.afterAlive env a).2).dead = true) ∧
    a.id ∉ (colony.tick cfg o nbi s).ants.map Ant.id ∧
    (∀ q ∈ s.ants, q.isQueen = true →
      (∀ env, ((o.queenBeh env q).2).isQueen = true) →
      (∀ env, ((o.queenBeh env q).2).dead = true) →
      (colony.tick cfg o nbi s).hasQueen = false) := by
  have hs1 := colony.tickGoals_ants o (colony.tickFrame s)
  rw [colony.tickFrame_ants] at hs1
  -- the state entering the ant loop
  have h6ants : (colony.tickClear cfg (colony.tickGravity cfg o.gravR
      (colony.tickDecay (colony.tickRoleShift (colony.tickGoals o
        (colony.tickFrame s)))))).ants =
      (colony.tickRoleShift (colony.tickGoals o (colony.tickFrame s))).ants := by
    rw [colony.tickClear_ants, colony.tickGravity_ants, colony.tickDecay_ants]
  have h6map : (colony.tickClear cfg (colony.tickGravity cfg o.gravR
      (colony.tickDecay (colony.tickRoleShift (colony.tickGoals o
        (colony.tickFrame s)))))).ants.map Ant.id = s.ants.map Ant.id := by
    rw [h6ants, colony.tickRoleShift_map_id, hs1]
  have h6nodup : ((colony.tickClear cfg (colony.tickGravity cfg o.gravR
      (colony.tickDecay (colony.tickRoleShift (colony.tickGoals o
        (colony.tickFrame s)))))).ants.map Ant.id).Nodup := by
    rw [h6map]
    exact hid
  have h6exists : ∃ a' ∈ (colony.tickClear cfg (colony.tickGravity cfg o.gravR
      (colony.tickDecay (colony.tickRoleShift (colony.tickGoals o
        (colony.tickFrame s)))))).ants,
      a'.id = a.id ∧ a'.isQueen = a.isQueen ∧ a'.energy = a.energy := by
    rw [h6ants]
    exact colony.tickRoleShift_exists _ a (by rw [hs1]; exact ha)
  refine ⟨fun env => update_worker_dead _ _ env a hqa he, ?_, ?_⟩
  · -- the dead worker's id is gone after the tick
    intro hmem
    unfold colony.tick at hmem
    rw [colony.tickPrune_ants, colony.tickChambers_ants, colony.tickDay_ants] at hmem
    unfold colony.broodPhase at hmem
    dsimp only at hmem
    rw [List.map_append, List.mem_append] at hmem
    rcases hmem with hmem | hmem
    · -- a survivor of the ant loop has the dead worker's id
      rw [colony.queenLaysEgg_ants] at hmem
      obtain ⟨c, hc, hcid⟩ := List.mem_map.mp hmem
      unfold colony.antLoop at hc
      dsimp only at hc
      obtain ⟨b, hb, hcb, env', hbdead⟩ := antLoopGo_src o.queenBeh o.afterAlive hqB haA _ _ _ c hc
      obtain ⟨a', ha', haid, haq, hae⟩ := h6exists
      have hba : b = a' := by
        apply List.inj_on_of_nodup_map h6nodup hb ha'
        rw [← hcb, hcid, haid]
      rw [hba] at hbdead
      have hdq : ((behavior.update o.queenBeh o.afterAlive env' a').2).dead = true :=
        update_worker_dead _ _ env' a' (by rw [haq]; exact hqa) (by rw [hae]; exact he)
      rw [hdq] at hbdead
      simp at hbdead
    · -- a newly emerged adult has the dead worker's id
      obtain ⟨sp, hsp, hspid⟩ := List.mem_map.mp hmem
      obtain ⟨i, x, y, hspc⟩ := colony.broodPhaseGo_spawn o.create o.babyR _ sp hsp
      exact hcr i x y (by rw [← hspc, hspid])
  · -- the dead queen clears hasQueen
    intro q hql hqq hqBq hqBd
    unfold colony.tick
    rw [colony.tickPrune_hasQueen, colony.tickChambers_hasQueen, colony.tickDay_hasQueen]
    have hbp : ∀ s', (colony.broodPhase o.create o.babyR s').hasQueen = s'.hasQueen :=
      fun s' => rfl
    rw [hbp, colony.queenLaysEgg_hasQueen]
    unfold colony.antLoop
    dsimp only
    apply antLoopGo_queenDead o.queenBeh o.afterAlive _ _ _ q _ hqq hqBq hqBd
    rw [h6ants]
    exact colony.tickRoleShift_queen _ q (by rw [hs1]; exact hql) hqq

/-! ## Brood lifecycle (C6) -/

lemma broodStep_id (create : Nat → ℚ → ℚ → Ant) (babyR : Nat → ℚ)
    (b b' : Brood) (h : (colony.broodStep create babyR b).1 = some b') :
    b'.id = b.id := by
  unfold colony.broodStep at h
  dsimp only at h
  split_ifs at h <;>
    (simp only [Option.some.injEq] at h; subst h; rfl)

lemma broodPhaseGo_mem (create : Nat → ℚ → ℚ → Ant) (babyR : Nat → ℚ) :
    ∀ (L : List Brood) (b b' : Brood), b ∈ L →
      (colony.broodStep create babyR b).1 = some b' →
      b' ∈ (colony.broodPhaseGo create babyR L).1 := by
  intro L
  induction L with
  | nil => intro b b' hb; exact absurd hb (List.not_mem_nil b)
  | cons a t ih =>
    intro b b' hb hstep
    rcases List.mem_cons.mp hb with heq | hbt
    · subst heq
      show b' ∈ (colony.broodStep create babyR b).1.toList ++
        (colony.broodPhaseGo create babyR t).1
      rw [hstep]
      exact List.mem_append_left _ (by simp)
    · exact List.mem_append_right _ (ih b b' hbt hstep)

lemma broodPhaseGo_src (create : Nat → ℚ → ℚ → Ant) (babyR : Nat → ℚ) :
    ∀ (L : List Brood) (c : Brood),
      c ∈ (colony.broodPhaseGo create babyR L).1 →
      ∃ b ∈ L, (colony.broodStep create babyR b).1 = some c := by
  intro L
  induction L with
  | nil => intro c hc; exact absurd hc (List.not_mem_nil c)
  | cons a t ih =>
    intro c hc
    rcases List.mem_append.mp hc with hl | hr
    · refine ⟨a, List.mem_cons_self a t, ?_⟩
      rcases ho : (colony.broodStep create babyR a).1 with _ | b'
      · rw [ho] at hl
        simp at hl
      · rw [ho] at hl
        simp only [Option.toList_some, List.mem_singleton] at hl
        subst hl
        rfl
    · obtain ⟨b, hb, hstep⟩ := ih c hr
      exact ⟨b, List.mem_cons_of_mem a hb, hstep⟩

/-- Claim C6: in the brood pass, a larva that has received its 3 required
feedings by the time its 1800-frame larval timer expires transitions to
the pupa stage (age reset to 0); and a larva with 0 feedings is removed
from the brood list once its age exceeds twice the normal larval
duration. -/
theorem brood_lifecycle (create : Nat → ℚ → ℚ → Ant) (babyR : Nat → ℚ)
    (L : List Brood) (b : Brood) (hb : b ∈ L)
    (hid : (L.map Brood.id).Nodup) :
    (b.stage = BROOD.LARVA → LARVA_FEEDINGS_NEEDED ≤ b.fed →
      BROOD_TIME.LARVA ≤ b.age + 1 →
      { b with stage := BROOD.PUPA, age := 0 } ∈
        (colony.broodPhaseGo create babyR L).1) ∧
    (b.stage = BROOD.LARVA → b.fed = 0 → BROOD_TIME.LARVA * 2 < b.age + 1 →
      ∀ c ∈ (colony.broodPhaseGo create babyR L).1, c.id ≠ b.id) := by
  constructor
  · intro hstage hfed hage
    apply broodPhaseGo_mem create babyR L b _ hb
    unfold colony.broodStep
    dsimp only
    split_ifs <;>
      first
        | rfl
        | (exfalso
           simp only [BROOD.EGG, BROOD.LARVA, BROOD.PUPA, BROOD_TIME.EGG,
             BROOD_TIME.LARVA, BROOD_TIME.PUPA, LARVA_FEEDINGS_NEEDED] at *
           omega)
  · intro hstage hfed hage c hc hcid
    have hnone : (colony.broodStep create babyR b).1 = none := by
      unfold colony.broodStep
      dsimp only
      split_ifs <;>
        first
          | rfl
          | (exfalso
             simp only [BROOD.EGG, BROOD.LARVA, BROOD.PUPA, BROOD_TIME.EGG,
               BROOD_TIME.LARVA, BROOD_TIME.PUPA, LARVA_FEEDINGS_NEEDED] at *
             omega)
    obtain ⟨b0, hb0, hstep⟩ := broodPhaseGo_src create babyR L c hc
    have hbid : b0.id = b.id := by
      rw [← broodStep_id create babyR b0 c hstep, hcid]
    have hbb : b0 = b :=
      List.inj_on_of_nodup_map hid hb0 hb hbid
    rw [hbb] at hstep
    rw [hnone] at hstep
    exact Option.noConfusion hstep

/-! ## Checkpoint serialization (C1): base64 and the sparse encoding -/

/-- The base64 alphabet (`A…Z a…z 0…9 + /`) as a char code. -/
def b64Char (s : Nat) : Nat :=
  if s < 26 then 65 + s
  else if s < 52 then 71 + s
  else if s < 62 then s - 4
  else if s = 62 then 43
  else 47

/-- Inverse alphabet lookup (0 for characters outside the alphabet). -/
def b64Val (c : Nat) : Nat :=
  if 65 ≤ c ∧ c ≤ 90 then c - 65
  else if 97 ≤ c ∧ c ≤ 122 then c - 71
  else if 48 ≤ c ∧ c ≤ 57 then c + 4
  else if c = 43 then 62
  else if c = 47 then 63
  else 0

lemma b64Val_b64Char : ∀ s, s < 64 → b64Val (b64Char s) = s := by decide

lemma b64Char_ne_pad : ∀ s, s < 64 → b64Char s ≠ 61 := by decide

/-- `_uint8ToBase64` (build a binary string with `String.fromCharCode`,
then `btoa`): RFC 4648 base64 of the byte list, as char codes. -/
def b64Encode : List Nat → List Nat
  | [] => []
  | [a] => [b64Char (a / 4), b64Char (a % 4 * 16), 61, 61]
  | [a, b] => [b64Char (a / 4), b64Char (a % 4 * 16 + b / 16), b64Char (b % 16 * 4), 61]
  | a :: b :: c :: t =>
    b64Char (a / 4) :: b64Char (a % 4 * 16 + b / 16) ::
      b64Char (b % 16 * 4 + c / 64) :: b64Char (c % 64) :: b64Encode t

/-- `_base64ToUint8` (`atob` + `charCodeAt`): decode each 4-char group,
dropping padding. -/
def b64Decode : List Nat → List Nat
  | c1 :: c2 :: c3 :: c4 :: t =>
    if c3 = 61 then [b64Val c1 * 4 + b64Val c2 / 16]
    else if c4 = 61 then
      [b64Val c1 * 4 + b64Val c2 / 16, b64Val c2 % 16 * 16 + b64Val c3 / 4]
    else
      (b64Val c1 * 4 + b64Val c2 / 16) ::
        (b64Val c2 % 16 * 16 + b64Val c3 / 4) ::
        (b64Val c3 % 4 * 64 + b64Val c4) :: b64Decode t
  | _ => []

/-- The grid blob round-trips byte-for-byte. -/
theorem b64_roundtrip : ∀ l : List Nat, (∀ b ∈ l, b < 256) →
    b64Decode (b64Encode l) = l
  | [], _ => rfl
  | [a], h => by
    have ha : a < 256 := h a (by simp)
    show b64Decode [b64Char (a / 4), b64Char (a % 4 * 16), 61, 61] = [a]
    unfold b64Decode
    rw [if_pos rfl]
    rw [b64Val_b64Char (a / 4) (by omega), b64Val_b64Char (a % 4 * 16) (by omega)]
    have e1 : a / 4 * 4 + a % 4 * 16 / 16 = a := by omega
    rw [e1]
  | [a, b], h => by
    have ha : a < 256 := h a (by simp)
    have hb : b < 256 := h b (by simp)
    show b64Decode [b64Char (a / 4), b64Char (a % 4 * 16 + b / 16),
      b64Char (b % 16 * 4), 61] = [a, b]
    unfold b64Decode
    rw [if_neg (b64Char_ne_pad (b % 16 * 4) (by omega)), if_pos rfl]
    rw [b64Val_b64Char (a / 4) (by omega),
      b64Val_b64Char (a % 4 * 16 + b / 16) (by omega),
      b64Val_b64Char (b % 16 * 4) (by omega)]
    have e1 : a / 4 * 4 + (a % 4 * 16 + b / 16) / 16 = a := by omega
    have e2 : (a % 4 * 16 + b / 16) % 16 * 16 + b % 16 * 4 / 4 = b := by omega
    rw [e1, e2]
  | a :: b :: c :: d :: t, h => by
    have ha : a < 256 := h a (by simp)
    have hb : b < 256 := h b (by simp)
    have hc : c < 256 := h c (by simp)
    have ih := b64_roundtrip (d :: t) (fun x hx => h x (by simp [hx]))
    show b64Decode (b64Char (a / 4) :: b64Char (a % 4 * 16 + b / 16) ::
      b64Char (b % 16 * 4 + c / 64) :: b64Char (c % 64) :: b64Encode (d :: t)) =
      a :: b :: c :: d :: t
    unfold b64Decode
    rw [if_neg (b64Char_ne_pad (b % 16 * 4 + c / 64) (by omega)),
      if_neg (b64Char_ne_pad (c % 64) (by omega))]
    rw [b64Val_b64Char (a / 4) (by omega),
      b64Val_b64Char (a % 4 * 16 + b / 16) (by omega),
      b64Val_b64Char (b % 16 * 4 + c / 64) (by omega),
      b64Val_b64Char (c % 64) (by omega), ih]
    have e1 : a / 4 * 4 + (a % 4 * 16 + b / 16) / 16 = a := by omega
    have e2 : (a % 4 * 16 + b / 16) % 16 * 16 + (b % 16 * 4 + c / 64) / 4 = b := by omega
    have e3 : (b % 16 * 4 + c / 64) % 4 * 64 + c % 64 = c := by omega
    rw [e1, e2, e3]
  | a :: b :: c :: [], h => by
    have ha : a < 256 := h a (by simp)
    have hb : b < 256 := h b (by simp)
    have hc : c < 256 := h c (by simp)
    show b64Decode [b64Char (a / 4), b64Char (a % 4 * 16 + b / 16),
      b64Char (b % 16 * 4 + c / 64), b64Char (c % 64)] = [a, b, c]
    unfold b64Decode
    rw [if_neg (b64Char_ne_pad (b % 16 * 4 + c / 64) (by omega)),
      if_neg (b64Char_ne_pad (c % 64) (by omega))]
    rw [b64Val_b64Char (a / 4) (by omega),
      b64Val_b64Char (a % 4 * 16 + b / 16) (by omega),
      b64Val_b64Char (b % 16 * 4 + c / 64) (by omega),
      b64Val_b64Char (c % 64) (by omega)]
    have e1 : a / 4 * 4 + (a % 4 * 16 + b / 16) / 16 = a := by omega
    have e2 : (a % 4 * 16 + b / 16) % 16 * 16 + (b % 16 * 4 + c / 64) / 4 = b := by omega
    have e3 : (b % 16 * 4 + c / 64) % 4 * 64 + c % 64 = c := by omega
    rw [e1, e2, e3]
    rfl

/-- `toFixed(p)` rounding moves a value by at most half a unit in the
last place. -/
lemma roundTo_abs_sub_le (p : Nat) (v : ℚ) :
    |roundTo p v - v| ≤ 1 / (2 * 10 ^ p) := by
  unfold roundTo
  have h10 : (0 : ℚ) < 10 ^ p := by positivity
  have key : (round (v * 10 ^ p) : ℚ) / 10 ^ p - v =
      ((round (v * 10 ^ p) : ℚ) - v * 10 ^ p) / 10 ^ p := by
    field_simp
    ring
  rw [key, abs_div, abs_of_pos h10]
  have hr : |(round (v * 10 ^ p) : ℚ) - v * 10 ^ p| ≤ 1 / 2 := by
    rw [abs_sub_comm]
    exact abs_sub_round (v * 10 ^ p)
  calc |(round (v * 10 ^ p) : ℚ) - v * 10 ^ p| / 10 ^ p
      ≤ (1 / 2) / 10 ^ p := by gcongr
    _ = 1 / (2 * 10 ^ p) := by rw [div_div]

/-- A sparse pheromone blob: `{length, entries: [[index, value], ...]}`. -/
structure Sparse where
  length : Nat
  entries : List (Nat × ℚ)
deriving DecidableEq

/-- The entry-collection loop of `_sparseEncode`, with running index `k`:
values above the 0.003 epsilon are kept, rounded to 4 decimals. -/
def sparseEntries : List ℚ → Nat → List (Nat × ℚ)
  | [], _ => []
  | v :: t, k =>
    if 3 / 1000 < v then (k, roundTo 4 v) :: sparseEntries t (k + 1)
    else sparseEntries t (k + 1)

/-- `_sparseEncode`. -/
def sparseEncode (m : List ℚ) : Sparse :=
  { length := m.length, entries := sparseEntries m 0 }

/-- `_sparseDecode` (`new Float32Array(data.length || defaultLen)`, then
write the entries). -/
def sparseDecode (d : Sparse) (defaultLen : Nat) : List ℚ :=
  d.entries.foldl (fun arr p => arr.set p.1 p.2)
    (List.replicate (jsOrNat d.length defaultLen) 0)

lemma sparse_foldl_lo : ∀ (t : List ℚ) (k : Nat) (arr : List ℚ) (j : Nat), j < k →
    ((sparseEntries t k).foldl (fun a p => a.set p.1 p.2) arr).getD j 0 =
      arr.getD j 0 := by
  intro t
  induction t with
  | nil => intro k arr j _; rfl
  | cons v t ih =>
    intro k arr j hj
    unfold sparseEntries
    split
    · show ((sparseEntries t (k + 1)).foldl _ (arr.set k (roundTo 4 v))).getD j 0 = _
      rw [ih (k + 1) _ j (by omega)]
      exact getD_set_ne _ _ (by omega)
    · exact ih (k + 1) arr j (by omega)

lemma sparse_foldl_point : ∀ (t : List ℚ) (k : Nat) (arr : List ℚ),
    arr.length = k + t.length → ∀ m, m < t.length →
    ((sparseEntries t k).foldl (fun a p => a.set p.1 p.2) arr).getD (k + m) 0 =
      (if 3 / 1000 < t.getD m 0 then roundTo 4 (t.getD m 0)
        else arr.getD (k + m) 0) := by
  intro t
  induction t with
  | nil => intro k arr _ m hm; exact absurd hm (by simp)
  | cons v t ih =>
    intro k arr hlen m hm
    cases m with
    | zero =>
      unfold sparseEntries
      split
      · rename_i hv
        show ((sparseEntries t (k + 1)).foldl _ (arr.set k (roundTo 4 v))).getD (k + 0) 0 = _
        rw [sparse_foldl_lo t (k + 1) _ (k + 0) (by omega)]
        rw [show k + 0 = k from rfl]
        rw [getD_set_self (roundTo 4 v) 0 (by simp at hlen ⊢; omega)]
        rw [if_pos (by simpa using hv)]
        rfl
      · rename_i hv
        rw [sparse_foldl_lo t (k + 1) arr (k + 0) (by omega)]
        rw [if_neg (by simpa using hv)]
    | succ m' =>
      have hm' : m' < t.length := by simpa using hm
      unfold sparseEntries
      split
      · show ((sparseEntries t (k + 1)).foldl _ (arr.set k (roundTo 4 v))).getD (k + (m' + 1)) 0 = _
        rw [show k + (m' + 1) = (k + 1) + m' from by omega]
        rw [ih (k + 1) _ (by simp at hlen ⊢; omega) m' hm']
        rw [show ((v :: t).getD (m' + 1) 0) = t.getD m' 0 from rfl]
        split
        · rfl
        · exact getD_set_ne _ _ (by omega)
      · rw [show k + (m' + 1) = (k + 1) + m' from by omega]
        rw [ih (k + 1) arr (by simp at hlen ⊢; omega) m' hm']
        rfl

/-- Pointwise description of the sparse round trip: kept entries come back
rounded to 4 decimals, sub-epsilon values come back as 0. -/
lemma sparse_roundtrip_point (m : List ℚ) (defaultLen : Nat) (i : Nat)
    (hi : i < m.length) :
    (sparseDecode (sparseEncode m) defaultLen).getD i 0 =
      (if 3 / 1000 < m.getD i 0 then roundTo 4 (m.getD i 0) else 0) := by
  have hlen0 : m.length ≠ 0 := by omega
  have hjs : jsOrNat m.length defaultLen = m.length := by simp [jsOrNat, hlen0]
  show ((sparseEntries m 0).foldl (fun a p => a.set p.1 p.2)
      (List.replicate (jsOrNat m.length defaultLen) 0)).getD i 0 = _
  rw [hjs]
  have harr : (List.replicate m.length (0 : ℚ)).length = 0 + m.length := by simp
  have hpt := sparse_foldl_point m 0 (List.replicate m.length 0) harr i hi
  rw [show (0 : Nat) + i = i from by omega] at hpt
  rw [hpt]
  split
  · rfl
  · rw [List.getD_eq_getElem _ _ (by simpa using hi)]
    simp

/-! ## Checkpoint serialization (C1): serialize / deserialize -/

/-- The serialized flat ant record (v11 field set). -/
structure SAnt where
  id : Nat
  x : ℚ
  y : ℚ
  vx : ℚ
  vy : ℚ
  state : Nat
  prevState : Nat
  energy : ℚ
  age : Nat
  isQueen : Bool
  maturity : ℚ
  carrying : Bool
  carryingSand : Nat
  carryingFood : Nat
  maxSandCarry : Nat
  heading : ℚ
  digAngle : ℚ
  stuck : ℚ
  digCD : Nat
  digCount : Nat
  stateTimer : Nat
  timeSinceRest : Nat
  feedCount : Nat
  role : String
  name : String
  size : ℚ
  hue : ℚ
deriving DecidableEq

namespace colony

/-- The per-ant record map in `AF.colony.serialize` (v11): ids, states and
integer counters verbatim; floats through `toFixed` (positions to 1
decimal, velocities/angles/maturity to 3, energy/hue to 1, size to 2);
possibly-undefined fields through `|| 0`. -/
def serAnt (a : Ant) : SAnt :=
  { id := a.id, x := roundTo 1 a.x, y := roundTo 1 a.y,
    vx := roundTo 3 a.vx, vy := roundTo 3 a.vy,
    state := a.state, prevState := a.prevState,
    energy := roundTo 1 a.energy, age := a.age,
    isQueen := a.isQueen,
    maturity := roundTo 3 (optOrQ a.maturity 0),
    carrying := a.carrying, carryingSand := a.carryingSand,
    carryingFood := optOrNat a.carryingFood 0,
    maxSandCarry := a.maxSandCarry,
    heading := roundTo 3 a.heading, digAngle := roundTo 3 a.digAngle,
    stuck := a.stuck, digCD := a.digCD, digCount := a.digCount,
    stateTimer := a.stateTimer, timeSinceRest := a.timeSinceRest,
    feedCount := optOrNat a.feedCount 0,
    role := a.role, name := a.name,
    size := roundTo 2 a.size, hue := roundTo 1 a.hue }

end colony

/-- The checkpoint object produced by `AF.colony.serialize` (v11). -/
structure Checkpoint where
  v : Nat
  grid : List Nat
  phTrail : Sparse
  phFood : Sparse
  phDig : Sparse
  ants : List SAnt
  foods : List Food
  chambers : List Chamber
  brood : List Brood
  foodStores : List Food
  frame : Nat
  totalDug : Nat
  simDay : Nat
  hasQueen : Bool
  queenUnderground : Bool
  entranceX : ℤ
  narration : String
  insight : String
  digPriority : Nat
  directive : Option Directive
  tuning : Tuning
  colonyGoals : Option Goals
  nextId : Nat
deriving DecidableEq

/-- The double value of `Math.PI`, as an exact rational model constant. -/
def mathPI : ℚ := 3.141592653589793

/-- `AF.ANT_NAMES`. -/
def ANT_NAMES : List String :=
  ["Ada", "Bea", "Chip", "Dot", "Eve", "Fig", "Grit", "Hex",
   "Ivy", "Jade", "Kit", "Lux", "Mote", "Nix", "Oak", "Pip",
   "Quinn", "Rex", "Sol", "Twig", "Uma", "Volt", "Wren", "Xena",
   "Yew", "Zest", "Ash", "Beck", "Cog", "Dew", "Elm", "Fern",
   "Glen", "Haze", "Iris", "Jet", "Kale", "Leaf", "Moss", "Noon",
   "Ore", "Pine", "Quill", "Root", "Sage", "Tarn", "Urn", "Vale",
   "Wax", "Yarrow", "Zen", "Amber", "Bolt", "Clay", "Dusk", "Ember",
   "Flint", "Grain", "Heath", "Inca"]

/-- The `Math.random()` draws `AF.ant.create` makes. -/
structure AntRnd where
  energyR : ℚ
  maxSandR : ℚ
  headingR : ℚ
  meanderPhaseR : ℚ
  meanderFreqR : ℚ
  sizeR : ℚ
  hueR : ℚ
  legTR : ℚ
  antTR : ℚ

namespace ant

/-- `AF.ant.create` (the v10 ant module, shared by every colony version),
with the id-counter value and the random draws passed explicitly.  The
fields later modules attach dynamically (`maturity`, `carryingFood`,
`feedCount`, `_dead`, navigation targets) start absent. -/
def create (r : AntRnd) (id : Nat) (x y : ℚ) (isQueen : Bool) : Ant :=
  { id := id, x := x, y := y, vx := 0, vy := 0,
    state := ST.IDLE, prevState := ST.IDLE,
    energy := if isQueen then 99999 else 900 + r.energyR * 200,
    age := 0, isQueen := isQueen,
    carrying := false, carryingSand := 0,
    maxSandCarry := 5 + (r.maxSandR * 4).floor.toNat,
    heading := r.headingR * mathPI * 2,
    digAngle := mathPI * (1/2),
    meanderPhase := r.meanderPhaseR * mathPI * 2,
    meanderFreq := 2/25 + r.meanderFreqR * (1/25),
    stuck := 0, digCD := 0, digCount := 0, stateTimer := 0,
    timeSinceRest := 0, restDuration := 0, pauseTimer := 0,
    role := if isQueen then "queen" else "idle",
    size := if isQueen then 11/2 else 4 + r.sizeR * (4/5),
    hue := r.hueR * 15,
    legT := r.legTR * mathPI * 2, antT := r.antTR * mathPI * 2,
    bodyBob := 0,
    name := ANT_NAMES.getD ((id - 1) % ANT_NAMES.length) "",
    lastThought := "",
    maturity := none, carryingFood := none, feedCount := none,
    dead := false, targetBrood := none, targetChamber := none }

end ant

namespace colony

/-- `AF.colony.serialize` (v11); `nextId` is `AF.ant.getNextId()`. -/
def serialize (s : AFState) (nextId : Nat) : Checkpoint :=
  { v := 11,
    grid := b64Encode s.grid,
    phTrail := sparseEncode s.phTrail,
    phFood := sparseEncode s.phFood,
    phDig := sparseEncode s.phDig,
    ants := s.ants.map serAnt,
    foods := s.foods, chambers := s.chambers, brood := s.brood,
    foodStores := s.foodStores,
    frame := s.frame, totalDug := s.totalDug, simDay := s.simDay,
    hasQueen := s.hasQueen, queenUnderground := s.queenUnderground,
    entranceX := s.entranceX,
    narration := s.narration, insight := s.insight,
    digPriority := s.digPriority,
    directive := s.directive,
    tuning := s.tuning, colonyGoals := s.colonyGoals,
    nextId := nextId }

/-- The ant reconstruction of `AF.colony.deserialize` (v11): rebuild via
`AF.ant.create(a.x, a.y, a.isQueen)` and `Object.assign` the saved record
over it — `x` and `y` (and the transient create-time fields) are the ones
`create` set, everything else is overridden with `|| d` defaulting. -/
def deserAnt (r : AntRnd) (id : Nat) (a : SAnt) : Ant :=
  { ant.create r id a.x a.y a.isQueen with
    id := a.id, vx := jsOrQ a.vx 0, vy := jsOrQ a.vy 0,
    state := a.state, prevState := jsOrNat a.prevState a.state,
    energy := a.energy, age := jsOrNat a.age 0,
    maturity := some (jsOrQ a.maturity (if a.isQueen then 1 else 1/2)),
    carrying := a.carrying, carryingSand := jsOrNat a.carryingSand 0,
    carryingFood := some (jsOrNat a.carryingFood 0),
    maxSandCarry := jsOrNat a.maxSandCarry 5,
    heading := jsOrQ a.heading 0,
    digAngle := jsOrQ a.digAngle (mathPI * (1/2)),
    stuck := jsOrQ a.stuck 0, digCD := jsOrNat a.digCD 0,
    digCount := jsOrNat a.digCount 0,
    stateTimer := jsOrNat a.stateTimer 0,
    timeSinceRest := jsOrNat a.timeSinceRest 0,
    feedCount := some (jsOrNat a.feedCount 0),
    role := jsOrStr a.role "idle", name := a.name,
    size := a.size, hue := a.hue }

/-- `AF.colony.deserialize` (v11).  Every `|| d` default from the source
is kept; the create-time random draws enter as the stream `rnds` (indexed
by list position), and `curNextId` is the id-counter value before
`resetIdCounter` runs (the counter-assigned ids are overridden by the
saved ids, as in the source). -/
def deserialize (cfg : Cfg) (rnds : Nat → AntRnd) (curNextId : Nat)
    (d : Checkpoint) : AFState :=
  let tuning := { d.tuning with nursePriority := jsOrNat d.tuning.nursePriority 5 }
  let startId := jsOrNat d.nextId curNextId
  { grid := b64Decode d.grid,
    phTrail := sparseDecode d.phTrail (cfg.COLS * cfg.ROWS),
    phFood := sparseDecode d.phFood (cfg.COLS * cfg.ROWS),
    phDig := sparseDecode d.phDig (cfg.COLS * cfg.ROWS),
    ants := d.ants.enum.map (fun p => deserAnt (rnds p.1) (startId + p.1) p.2),
    foods := d.foods, chambers := d.chambers, brood := d.brood,
    foodStores := d.foodStores,
    frame := jsOrNat d.frame 0, totalDug := jsOrNat d.totalDug 0,
    simDay := jsOrNat d.simDay 1,
    queenUnderground := d.queenUnderground,
    entranceX := d.entranceX,
    terrainDirty := true,
    narration := jsOrStr d.narration "", insight := jsOrStr d.insight "",
    directive := d.directive,
    digPriority := jsOrNat d.digPriority 7,
    tuning := tuning, colonyGoals := d.colonyGoals,
    deaths := [],
    hasQueen := d.hasQueen }

end colony

/-! ## Test fixtures for witnesses -/

/-- Concrete tuning record with the v11 defaults. -/
def testTuning : Tuning :=
  { restThreshold := 20, explorationBias := 3/10, forageRadius := 200,
    branchingChance := 3/20, chamberSizeTarget := 60, antMaxEnergy := 100,
    queenSpawnRate := 1800, sandCarryMax := 5, nursePriority := 5 }

/-- A tiny 3×3 configuration used to evaluate the model concretely. -/
def testCfg : Cfg := { COLS := 3, ROWS := 3, SURFACE := 1, CELL := 3 }

/-- A small concrete environment on the 3×3 grid. -/
def testEnv : Env :=
  { grid := [0, 0, 0, 1, 2, 5, 4, 1, 0],
    phTrail := [0, 1/2, 1, 0, 0, 0, 0, 0, 0],
    phFood := [0, 0, 0, 0, 1, 0, 0, 0, 0],
    phDig := [3/2, 0, 0, 0, 0, 0, 0, 0, 1/250],
    foods := [], chambers := [], brood := [], foodStores := [],
    frame := 0, totalDug := 0, simDay := 1, queenUnderground := false,
    entranceX := 1, terrainDirty := false, narration := "", insight := "",
    directive := none, digPriority := 7, tuning := testTuning,
    colonyGoals := none, deaths := [] }

/-- A concrete worker ant. -/
def testAnt : Ant :=
  { id := 1, x := 3, y := 3, vx := 0, vy := 0, state := ST.IDLE,
    prevState := ST.IDLE, energy := 900, age := 0, isQueen := false,
    carrying := false, carryingSand := 0, maxSandCarry := 5, heading := 0,
    digAngle := 0, meanderPhase := 0, meanderFreq := 0, stuck := 0,
    digCD := 0, digCount := 0, stateTimer := 0, timeSinceRest := 0,
    restDuration := 0, pauseTimer := 0, role := "idle", size := 4, hue := 0,
    legT := 0, antT := 0, bodyBob := 0, name := "Ada", lastThought := "",
    maturity := none, carryingFood := none, feedCount := none,
    dead := false, targetBrood := none, targetChamber := none }

/-- A concrete queen ant. -/
def testQueen : Ant :=
  { testAnt with
    id := 2, isQueen := true, energy := 99999, role := "queen",
    name := "Bea" }

/-- A concrete role shift asking for one digger. -/
def testRS : RoleShift :=
  { idle_to_digger := 1, idle_to_forager := 0, idle_to_explorer := 0,
    idle_to_nurse := 0 }

/-- A concrete colony state: the test environment plus one idle worker and
the queen. -/
def testState : AFState :=
  { toEnv := testEnv, ants := [testAnt, testQueen], hasQueen := true }

/-- A larva that reaches its larval timer with 3 feedings on the next pass. -/
def testLarvaA : Brood :=
  { id := 1, stage := BROOD.LARVA, x := 3, y := 6, age := 1799, fed := 3 }

/-- A never-fed larva beyond double the larval duration on the next pass. -/
def testLarvaB : Brood :=
  { id := 2, stage := BROOD.LARVA, x := 4, y := 6, age := 3600, fed := 0 }

/-- A concrete brood list with distinct ids. -/
def testBroodL : List Brood := [testLarvaA, testLarvaB]

/-- A concrete ant-creation oracle. -/
def testCreate : Nat → ℚ → ℚ → Ant := fun _ x y => { testAnt with x := x, y := y }

/-- A concrete brood-energy draw. -/
def testBabyR : Nat → ℚ := fun _ => 0

/-- A worker whose next energy drain reaches 0. -/
def dyingAnt : Ant := { testAnt with id := 3, energy := 0 }

/-- A concrete colony entering a tick with the dying worker and the queen. -/
def testTickState : AFState :=
  { toEnv := testEnv, ants := [dyingAnt, testQueen], hasQueen := true }

/-- Concrete tick oracles: the continuation is the identity, the queen
behavior marks the queen dead, created ants get ids from 100 up. -/
def testOracles : colony.TickOracles :=
  { queenBeh := fun env a => (env, { a with dead := true }),
    afterAlive := fun env a => (env, a),
    goals := fun _ => (none, 7, false),
    chambers := fun _ => [],
    create := fun i x y => { testAnt with id := 100 + i, x := x, y := y },
    babyR := fun _ => 0,
    gravR := fun _ => true,
    eggR1 := 0,
    eggR2 := 0 }

/-- Witness for C4: on the concrete two-ant colony, the update kills the
energy-0 worker, the tick removes its id from the ant list, and (with the
oracle queen behavior marking the queen dead) `hasQueen` is cleared. -/
theorem tick_removes_dead_witness :
    (dyingAnt ∈ testTickState.ants ∧ dyingAnt.isQueen = false ∧
      dyingAnt.energy ≤ 1/10 ∧ (testTickState.ants.map Ant.id).Nodup) ∧
    (∀ env, ((behavior.update testOracles.queenBeh testOracles.afterAlive env
      dyingAnt).2).dead = true) ∧
    dyingAnt.id ∉ (colony.tick testCfg testOracles 1 testTickState).ants.map Ant.id ∧
    (colony.tick testCfg testOracles 1 testTickState).hasQueen = false := by
  have hmain := tick_removes_dead testCfg testOracles 1 testTickState dyingAnt
    (by decide) rfl (by norm_num [dyingAnt, testAnt]) (by decide)
    (fun _ _ => rfl) (fun _ _ => rfl)
    (fun i x y => by show 100 + i ≠ 3; omega)
  refine ⟨⟨by decide, rfl, by norm_num [dyingAnt, testAnt], by decide⟩,
    hmain.1, hmain.2.1, ?_⟩
  exact hmain.2.2 testQueen (by decide) rfl (fun _ => rfl) (fun _ => rfl)

/-- Witness for C6 on the concrete two-larva brood list: the fed larva's
pupa is in the pass result and no record with the unfed larva's id
remains. -/
theorem brood_lifecycle_witness :
    (testLarvaA ∈ testBroodL ∧ (testBroodL.map Brood.id).Nodup ∧
      testLarvaA.stage = BROOD.LARVA ∧ LARVA_FEEDINGS_NEEDED ≤ testLarvaA.fed ∧
      BROOD_TIME.LARVA ≤ testLarvaA.age + 1 ∧
      testLarvaB.stage = BROOD.LARVA ∧ testLarvaB.fed = 0 ∧
      BROOD_TIME.LARVA * 2 < testLarvaB.age + 1) ∧
    ({ testLarvaA with stage := BROOD.PUPA, age := 0 } ∈
      (colony.broodPhaseGo testCreate testBabyR testBroodL).1) ∧
    (∀ c ∈ (colony.broodPhaseGo testCreate testBabyR testBroodL).1,
      c.id ≠ testLarvaB.id) :=
  ⟨by decide,
    (brood_lifecycle testCreate testBabyR testBroodL testLarvaA (by decide)
      (by decide)).1 (by decide) (by decide) (by decide),
    (brood_lifecycle testCreate testBabyR testBroodL testLarvaB (by decide)
      (by decide)).2 (by decide) (by decide) (by decide)⟩

/-- Witness for C3: the invariant holds on the concrete test environment
and is preserved by the concrete sequence `dig(1,1); gravity; dig(2,1)`. -/
theorem terrain_ops_invariant_witness :
    GridLe5 Antfarm.testEnv ∧
      (GridLe5 (runOps testCfg testEnv
          [TOp.dig 1 1, TOp.grav (fun _ => true), TOp.dig 2 1]) ∧
        testEnv.totalDug ≤ (runOps testCfg testEnv
          [TOp.dig 1 1, TOp.grav (fun _ => true), TOp.dig 2 1]).totalDug) :=
  ⟨by decide, terrain_ops_invariant.2 testCfg testEnv (by decide)
    [TOp.dig 1 1, TOp.grav (fun _ => true), TOp.dig 2 1]⟩

/-! ## Pheromone decay convergence (C7) -/

namespace pheromones

lemma decayStep_nonneg (r v : ℚ) : 0 ≤ decayStep r v := by
  unfold decayStep
  split
  · exact le_refl 0
  · rename_i h
    push_neg at h
    linarith

lemma decayStep_le (r v : ℚ) (hr : 0 ≤ r) (hv : 0 ≤ v) : decayStep r v ≤ r * v := by
  unfold decayStep
  split
  · exact mul_nonneg hr hv
  · exact le_of_eq (mul_comm v r)

lemma decayStep_zero (r : ℚ) : decayStep r 0 = 0 := by
  unfold decayStep
  rw [if_pos]
  norm_num

lemma decayStep_small (r v : ℚ) (hr : r ≤ 1) (hv0 : 0 ≤ v) (hv : v < 3 / 1000) :
    decayStep r v = 0 := by
  unfold decayStep
  rw [if_pos]
  nlinarith

lemma decayStep_iter_nonneg (r v : ℚ) (hv0 : 0 ≤ v) :
    ∀ k, 0 ≤ (decayStep r)^[k] v := by
  intro k
  induction k with
  | zero => exact hv0
  | succ n _ =>
    rw [Function.iterate_succ_apply']
    exact decayStep_nonneg r _

lemma decayStep_iter_le (r v : ℚ) (hr : 0 ≤ r) (hv0 : 0 ≤ v) :
    ∀ k, (decayStep r)^[k] v ≤ r ^ k * v := by
  intro k
  induction k with
  | zero => simp
  | succ n ih =>
    rw [Function.iterate_succ_apply', pow_succ]
    calc decayStep r ((decayStep r)^[n] v)
        ≤ r * (decayStep r)^[n] v :=
          decayStep_le r _ hr (decayStep_iter_nonneg r v hv0 n)
      _ ≤ r * (r ^ n * v) := by
          exact mul_le_mul_of_nonneg_left ih hr
      _ = r ^ n * r * v := by ring

/-- The retention factors 0.993, 0.996, 0.99 are all at most `249/250`, and
`(249/250)^1620 · (3/2) < 0.003`, so 1621 calls empty any cell that starts
in `[0, 3/2]`, and the snap keeps it at 0 afterwards. -/
lemma decayStep_iter_eventually_zero (r v : ℚ) (hr0 : 0 ≤ r) (hr : r ≤ 249 / 250)
    (hv0 : 0 ≤ v) (hv : v ≤ 3 / 2) :
    ∀ k, 1621 ≤ k → (decayStep r)^[k] v = 0 := by
  have h180 : (249 / 250 : ℚ) ^ 180 < 1 / 2 := by norm_num
  have h1620 : (249 / 250 : ℚ) ^ 1620 < 1 / 500 := by
    have h9 : ((249 / 250 : ℚ) ^ 180) ^ 9 < (1 / 2 : ℚ) ^ 9 :=
      pow_lt_pow_left₀ h180 (by positivity) (by norm_num)
    have hmul : (249 / 250 : ℚ) ^ 1620 = ((249 / 250 : ℚ) ^ 180) ^ 9 := by
      rw [← pow_mul]
    rw [hmul]
    calc ((249 / 250 : ℚ) ^ 180) ^ 9 < (1 / 2 : ℚ) ^ 9 := h9
      _ < 1 / 500 := by norm_num
  have hbound : (decayStep r)^[1620] v < 3 / 1000 := by
    calc (decayStep r)^[1620] v ≤ r ^ 1620 * v := decayStep_iter_le r v hr0 hv0 1620
      _ ≤ (249 / 250 : ℚ) ^ 1620 * (3 / 2) := by
          apply mul_le_mul (pow_le_pow_left₀ hr0 hr 1620) hv hv0 (by positivity)
      _ < 3 / 1000 := by nlinarith
  have h1621 : (decayStep r)^[1621] v = 0 := by
    rw [show (1621 : ℕ) = 1620 + 1 from rfl, Function.iterate_succ_apply']
    exact decayStep_small r _ (le_trans hr (by norm_num))
      (decayStep_iter_nonneg r v hv0 1620) hbound
  intro k hk
  have hsplit : k = (k - 1621) + 1621 := by omega
  rw [hsplit, Function.iterate_add_apply, h1621]
  exact Function.iterate_fixed (decayStep_zero r) _

lemma getD_map_zero {f : ℚ → ℚ} (hf : f 0 = 0) (l : List ℚ) (i : Nat) :
    (l.map f).getD i 0 = f (l.getD i 0) := by
  by_cases hi : i < l.length
  · rw [List.getD_eq_getElem _ _ (by simpa using hi), List.getD_eq_getElem _ _ hi,
      List.getElem_map]
  · rw [List.getD_eq_default _ _ (by simpa using le_of_not_lt hi),
      List.getD_eq_default _ _ (le_of_not_lt hi), hf]

lemma decay_iter_trail (e : Env) (i : Nat) :
    ∀ k, (decay^[k] e).phTrail.getD i 0 =
      (decayStep (993 / 1000))^[k] (e.phTrail.getD i 0) := by
  intro k
  induction k generalizing e with
  | zero => rfl
  | succ n ih =>
    rw [Function.iterate_succ_apply, Function.iterate_succ_apply, ih (decay e)]
    rw [show (decay e).phTrail = e.phTrail.map (decayStep (993 / 1000)) from rfl]
    rw [getD_map_zero (decayStep_zero _)]

lemma decay_iter_food (e : Env) (i : Nat) :
    ∀ k, (decay^[k] e).phFood.getD i 0 =
      (decayStep (996 / 1000))^[k] (e.phFood.getD i 0) := by
  intro k
  induction k generalizing e with
  | zero => rfl
  | succ n ih =>
    rw [Function.iterate_succ_apply, Function.iterate_succ_apply, ih (decay e)]
    rw [show (decay e).phFood = e.phFood.map (decayStep (996 / 1000)) from rfl]
    rw [getD_map_zero (decayStep_zero _)]

lemma decay_iter_dig (e : Env) (i : Nat) :
    ∀ k, (decay^[k] e).phDig.getD i 0 =
      (decayStep (99 / 100))^[k] (e.phDig.getD i 0) := by
  intro k
  induction k generalizing e with
  | zero => rfl
  | succ n ih =>
    rw [Function.iterate_succ_apply, Function.iterate_succ_apply, ih (decay e)]
    rw [show (decay e).phDig = e.phDig.map (decayStep (99 / 100)) from rfl]
    rw [getD_map_zero (decayStep_zero _)]

lemma getD_bounds {l : List ℚ} (h : ∀ v ∈ l, 0 ≤ v ∧ v ≤ 3 / 2) (i : Nat) :
    0 ≤ l.getD i 0 ∧ l.getD i 0 ≤ 3 / 2 := by
  by_cases hi : i < l.length
  · rw [List.getD_eq_getElem l 0 hi]
    exact h _ (List.getElem_mem hi)
  · rw [List.getD_eq_default _ _ (le_of_not_lt hi)]
    norm_num

end pheromones

/-- Claim C7: from any pheromone state with all channel values in
`[0, 1.5]`, iterated `decay()` calls with no interleaved deposits are
never negative at any cell, and every cell of every channel is exactly 0
after at most 1621 calls. -/
theorem decay_converges (e : Env)
    (hT : ∀ v ∈ e.phTrail, 0 ≤ v ∧ v ≤ 3 / 2)
    (hF : ∀ v ∈ e.phFood, 0 ≤ v ∧ v ≤ 3 / 2)
    (hD : ∀ v ∈ e.phDig, 0 ≤ v ∧ v ≤ 3 / 2) :
    ∀ (i k : Nat),
      (0 ≤ (pheromones.decay^[k] e).phTrail.getD i 0 ∧
        0 ≤ (pheromones.decay^[k] e).phFood.getD i 0 ∧
        0 ≤ (pheromones.decay^[k] e).phDig.getD i 0) ∧
      (1621 ≤ k →
        (pheromones.decay^[k] e).phTrail.getD i 0 = 0 ∧
        (pheromones.decay^[k] e).phFood.getD i 0 = 0 ∧
        (pheromones.decay^[k] e).phDig.getD i 0 = 0) := by
  intro i k
  obtain ⟨hT0, hT1⟩ := pheromones.getD_bounds hT i
  obtain ⟨hF0, hF1⟩ := pheromones.getD_bounds hF i
  obtain ⟨hD0, hD1⟩ := pheromones.getD_bounds hD i
  rw [pheromones.decay_iter_trail e i k, pheromones.decay_iter_food e i k,
    pheromones.decay_iter_dig e i k]
  refine ⟨⟨?_, ?_, ?_⟩, ?_⟩
  · exact pheromones.decayStep_iter_nonneg _ _ hT0 k
  · exact pheromones.decayStep_iter_nonneg _ _ hF0 k
  · exact pheromones.decayStep_iter_nonneg _ _ hD0 k
  · intro hk
    refine ⟨?_, ?_, ?_⟩
    · exact pheromones.decayStep_iter_eventually_zero _ _ (by norm_num) (by norm_num)
        hT0 hT1 k hk
    · exact pheromones.decayStep_iter_eventually_zero _ _ (by norm_num) (by norm_num)
        hF0 hF1 k hk
    · exact pheromones.decayStep_iter_eventually_zero _ _ (by norm_num) (by norm_num)
        hD0 hD1 k hk

lemma testEnv_phTrail_range : ∀ v ∈ testEnv.phTrail, 0 ≤ v ∧ v ≤ 3 / 2 := by
  intro v hv
  simp only [testEnv] at hv
  fin_cases hv <;> norm_num

lemma testEnv_phFood_range : ∀ v ∈ testEnv.phFood, 0 ≤ v ∧ v ≤ 3 / 2 := by
  intro v hv
  simp only [testEnv] at hv
  fin_cases hv <;> norm_num

lemma testEnv_phDig_range : ∀ v ∈ testEnv.phDig, 0 ≤ v ∧ v ≤ 3 / 2 := by
  intro v hv
  simp only [testEnv] at hv
  fin_cases hv <;> norm_num

/-- Witness for C7: the concrete test pheromone maps (values 0, 1/2, 1,
3/2, 1/250) satisfy the range hypotheses, instantiated at cell 0 after
2000 calls. -/
theorem decay_converges_witness :
    (∀ v ∈ testEnv.phTrail, 0 ≤ v ∧ v ≤ 3 / 2) ∧
      ((0 ≤ (pheromones.decay^[2000] testEnv).phTrail.getD 0 0 ∧
        0 ≤ (pheromones.decay^[2000] testEnv).phFood.getD 0 0 ∧
        0 ≤ (pheromones.decay^[2000] testEnv).phDig.getD 0 0) ∧
      (1621 ≤ 2000 →
        (pheromones.decay^[2000] testEnv).phTrail.getD 0 0 = 0 ∧
        (pheromones.decay^[2000] testEnv).phFood.getD 0 0 = 0 ∧
        (pheromones.decay^[2000] testEnv).phDig.getD 0 0 = 0)) :=
  ⟨testEnv_phTrail_range,
    decay_converges testEnv testEnv_phTrail_range testEnv_phFood_range
      testEnv_phDig_range 0 2000⟩

/-! ## Claim theorems: terrain and pheromone substrate -/

/-- Claim C8: for every coordinate outside the grid bounds, `cellAt`
returns the solid sentinel 255, which `isSolid` treats as solid, rather
than an open cell. -/
theorem cellAt_oob_solid (cfg : Cfg) (e : Env) (x y : ℤ)
    (h : x < 0 ∨ (cfg.COLS : ℤ) ≤ x ∨ y < 0 ∨ (cfg.ROWS : ℤ) ≤ y) :
    terrain.cellAt cfg e x y = 255 ∧ terrain.isSolid cfg e x y := by
  have hc : terrain.cellAt cfg e x y = 255 := by
    unfold terrain.cellAt
    exact if_pos h
  refine ⟨hc, ?_⟩
  unfold terrain.isSolid
  rw [hc]
  norm_num

/-- Witness for C8 at the concrete coordinate `(-1, 0)`. -/
theorem cellAt_oob_solid_witness :
    ((-1 : ℤ) < 0 ∨ (testCfg.COLS : ℤ) ≤ -1 ∨ (0 : ℤ) < 0 ∨ (testCfg.ROWS : ℤ) ≤ 0) ∧
      (terrain.cellAt testCfg testEnv (-1) 0 = 255 ∧ terrain.isSolid testCfg testEnv (-1) 0) :=
  ⟨by decide, cellAt_oob_solid testCfg testEnv (-1) 0 (by decide)⟩

/-- Claim C9: an out-of-bounds pheromone deposit leaves all three fields
unchanged, and an out-of-bounds pheromone read returns 0, on every channel. -/
theorem pheromone_oob_noop (cfg : Cfg) (e : Env) (x y : ℤ) (v : ℚ)
    (c : pheromones.Chan)
    (h : x < 0 ∨ (cfg.COLS : ℤ) ≤ x ∨ y < 0 ∨ (cfg.ROWS : ℤ) ≤ y) :
    (pheromones.set cfg e x y v c).phTrail = e.phTrail ∧
      (pheromones.set cfg e x y v c).phFood = e.phFood ∧
      (pheromones.set cfg e x y v c).phDig = e.phDig ∧
      pheromones.get cfg e x y c = 0 := by
  have hin : ¬(0 ≤ x ∧ x < (cfg.COLS : ℤ) ∧ 0 ≤ y ∧ y < (cfg.ROWS : ℤ)) := by
    rcases h with h | h | h | h <;> (intro hc; obtain ⟨h1, h2, h3, h4⟩ := hc; omega)
  have hset : pheromones.set cfg e x y v c = e := by
    unfold pheromones.set
    exact if_neg hin
  have hget : pheromones.get cfg e x y c = 0 := by
    unfold pheromones.get
    exact if_neg hin
  exact ⟨by rw [hset], by rw [hset], by rw [hset], hget⟩

/-- Witness for C9 at the concrete coordinate `(3, 1)` on the trail channel. -/
theorem pheromone_oob_noop_witness :
    ((3 : ℤ) < 0 ∨ (testCfg.COLS : ℤ) ≤ 3 ∨ (1 : ℤ) < 0 ∨ (testCfg.ROWS : ℤ) ≤ 1) ∧
      ((pheromones.set testCfg testEnv 3 1 1 pheromones.Chan.trail).phTrail = testEnv.phTrail ∧
        (pheromones.set testCfg testEnv 3 1 1 pheromones.Chan.trail).phFood = testEnv.phFood ∧
        (pheromones.set testCfg testEnv 3 1 1 pheromones.Chan.trail).phDig = testEnv.phDig ∧
        pheromones.get testCfg testEnv 3 1 pheromones.Chan.trail = 0) :=
  ⟨by decide, pheromone_oob_noop testCfg testEnv 3 1 1 pheromones.Chan.trail (by decide)⟩

/-- Claim C2: on an in-bounds cell, `dig` clears a hardness-1 cell and
increments `totalDug` by exactly 1 (returning the truthy 1); decrements a
hardness-≥2 cell leaving `totalDug` unchanged; and is a falsy-returning
no-op on an already-open cell. -/
theorem dig_hardness_cases (cfg : Cfg) (e : Env) (x y : ℤ)
    (hx0 : 0 ≤ x) (hx : x < (cfg.COLS : ℤ)) (hy0 : 0 ≤ y) (hy : y < (cfg.ROWS : ℤ)) :
    (e.grid.getD (gIdx cfg x y) 0 = 1 →
      (terrain.dig cfg e x y).1.grid.getD (gIdx cfg x y) 0 = 0 ∧
      (terrain.dig cfg e x y).1.totalDug = e.totalDug + 1 ∧
      (terrain.dig cfg e x y).2 = 1) ∧
    (2 ≤ e.grid.getD (gIdx cfg x y) 0 →
      (terrain.dig cfg e x y).1.grid.getD (gIdx cfg x y) 0 =
        e.grid.getD (gIdx cfg x y) 0 - 1 ∧
      (terrain.dig cfg e x y).1.totalDug = e.totalDug ∧
      (terrain.dig cfg e x y).2 = 1) ∧
    (e.grid.getD (gIdx cfg x y) 0 = 0 → terrain.dig cfg e x y = (e, 0)) := by
  have hoob : ¬(x < 0 ∨ (cfg.COLS : ℤ) ≤ x ∨ y < 0 ∨ (cfg.ROWS : ℤ) ≤ y) := by
    intro h
    rcases h with h | h | h | h <;> omega
  refine ⟨?_, ?_, ?_⟩
  · intro h1
    have hlen : gIdx cfg x y < e.grid.length :=
      lt_length_of_getD_ne_zero (by rw [h1]; norm_num)
    unfold terrain.dig
    rw [if_neg hoob, if_neg (by rw [h1]; norm_num), if_pos (by rw [h1])]
    dsimp only
    refine ⟨?_, ?_, rfl⟩
    · rw [reinforce_grid_center cfg _ hx0 hx hy0 hy]
      exact getD_set_self 0 0 hlen
    · rw [reinforce_totalDug]
  · intro h2
    unfold terrain.dig
    rw [if_neg hoob, if_neg (by omega), if_neg (by omega)]
    dsimp only
    have hlen : gIdx cfg x y < e.grid.length :=
      lt_length_of_getD_ne_zero (by omega)
    exact ⟨getD_set_self _ 0 hlen, rfl, rfl⟩
  · intro h0
    unfold terrain.dig
    rw [if_neg hoob, if_pos h0]

/-- Witness for C10: applying the one-digger role shift to the concrete
two-ant colony changes the idle worker's state, and the worker was indeed
an eligible non-queen IDLE/REST agent; the grid is untouched. -/
theorem roleShift_frame_witness :
    (((colony.applyRoleShift testState testRS).ants.getD 0 default).state ≠
        (testState.ants.getD 0 default).state) ∧
      ((testState.ants.getD 0 default).isQueen = false ∧
        ((testState.ants.getD 0 default).state = ST.IDLE ∨
          (testState.ants.getD 0 default).state = ST.REST)) ∧
      (colony.applyRoleShift testState testRS).grid = testState.grid :=
  ⟨by decide, (roleShift_frame testState testRS).1.2 0 (by decide),
    (roleShift_frame testState testRS).2.1⟩

/-- Claim C5 as amended: a non-queen agent in a state other than REST and
HUNGRY whose energy is below the hunger threshold (350) has its carried
food dropped and transitions to HUNGRY in the same think phase — provided
the higher-priority randomized rest-need rule does not fire first (its
window `restMinAdj + r·(900 − restMinAdj)` has not been exceeded by
`timeSinceRest`). -/
theorem think_hunger (t : Tuning) (r1 r2 : ℚ) (tail : Ant → Ant) (a : Ant)
    (hq : a.isQueen = false)
    (hs1 : a.state ≠ ST.REST) (hs2 : a.state ≠ ST.HUNGRY)
    (he : a.energy < behavior.B_HUNGER_THRESHOLD)
    (hrest : (a.timeSinceRest : ℚ) ≤
      behavior.restMinAdj t + r1 * (behavior.B_REST_MAX - behavior.restMinAdj t)) :
    (behavior.think t r1 r2 tail a).state = ST.HUNGRY ∧
      (behavior.think t r1 r2 tail a).carrying = false := by
  have hcar : (if a.carrying then { a with carrying := false } else a).carrying = false := by
    by_cases hc : a.carrying
    · rw [if_pos hc]
    · rw [if_neg hc]
      simpa using hc
  unfold behavior.think
  rw [if_neg (by
    rintro ⟨⟨_, hlt⟩, _⟩
    exact absurd hlt (not_lt.mpr hrest))]
  rw [if_pos ⟨⟨hs1, hs2, hq⟩, he⟩]
  dsimp only
  split
  · exact ⟨rfl, hcar⟩
  · exact ⟨rfl, hcar⟩

/-- A hungry carrying ant whose rest timer is far beyond the maximum rest
window: the rest rule fires before the hunger rule. -/
def cexAnt : Ant :=
  { testAnt with timeSinceRest := 1000, energy := 300, carrying := true }

/-- A hungry carrying ant with a fresh rest timer. -/
def witAnt : Ant :=
  { testAnt with timeSinceRest := 100, energy := 300, carrying := true }

/-- Counterexample to C5 as stated: `cexAnt` is a non-queen agent in a
state other than REST and HUNGRY with energy below the hunger threshold,
yet the think phase puts it in REST, not HUNGRY — the rest-need rule
(lines 221–231 of the v12 behavior module) runs before the hunger rule
and fires for any random draw once `timeSinceRest > 900`.  The draw 1/2
is used concretely. -/
theorem think_hunger_counterexample :
    (cexAnt.isQueen = false ∧ cexAnt.state ≠ ST.REST ∧ cexAnt.state ≠ ST.HUNGRY ∧
        cexAnt.energy < behavior.B_HUNGER_THRESHOLD) ∧
      (behavior.think testTuning (1/2) 0 id cexAnt).state = ST.REST ∧
      (behavior.think testTuning (1/2) 0 id cexAnt).state ≠ ST.HUNGRY := by
  have hres : (behavior.think testTuning (1/2) 0 id cexAnt).state = ST.REST := by
    unfold behavior.think
    rw [if_pos]
    · rfl
    · constructor
      · constructor
        · intro h
          exact absurd h (by decide)
        · show behavior.restMinAdj testTuning + 1/2 *
            (behavior.B_REST_MAX - behavior.restMinAdj testTuning) <
              ((cexAnt.timeSinceRest : ℚ))
          norm_num [behavior.restMinAdj, jsOrQ, testTuning, cexAnt, testAnt,
            behavior.B_REST_MAX, behavior.B_REST_MIN]
      · left
        show cexAnt.energy < 600
        norm_num [cexAnt, testAnt]
  refine ⟨⟨rfl, by decide, by decide, ?_⟩, hres, ?_⟩
  · show cexAnt.energy < behavior.B_HUNGER_THRESHOLD
    norm_num [cexAnt, testAnt, behavior.B_HUNGER_THRESHOLD]
  · rw [hres]
    decide

/-- Witness for the amended C5 at the concrete ant `witAnt` with draw 0. -/
theorem think_hunger_witness :
    (witAnt.isQueen = false ∧ witAnt.state ≠ ST.REST ∧ witAnt.state ≠ ST.HUNGRY ∧
        witAnt.energy < behavior.B_HUNGER_THRESHOLD ∧
        (witAnt.timeSinceRest : ℚ) ≤ behavior.restMinAdj testTuning +
          0 * (behavior.B_REST_MAX - behavior.restMinAdj testTuning)) ∧
      ((behavior.think testTuning 0 0 id witAnt).state = ST.HUNGRY ∧
        (behavior.think testTuning 0 0 id witAnt).carrying = false) :=
  ⟨⟨rfl, by decide, by decide,
      by norm_num [witAnt, testAnt, behavior.B_HUNGER_THRESHOLD],
      by norm_num [witAnt, testAnt, behavior.restMinAdj, jsOrQ, testTuning,
        behavior.B_REST_MIN, behavior.B_REST_MAX]⟩,
    think_hunger testTuning 0 0 id witAnt rfl (by decide) (by decide)
      (by norm_num [witAnt, testAnt, behavior.B_HUNGER_THRESHOLD])
      (by norm_num [witAnt, testAnt, behavior.restMinAdj, jsOrQ, testTuning,
        behavior.B_REST_MIN, behavior.B_REST_MAX])⟩

/-- Witness for C2 at the three concrete cells `(0,1)` (hardness 1),
`(1,1)` (hardness 2) and `(2,2)` (open) of the test environment. -/
theorem dig_hardness_cases_witness :
    ((0 : ℤ) ≤ 0 ∧ (0 : ℤ) < (testCfg.COLS : ℤ) ∧ (0 : ℤ) ≤ 1 ∧ (1 : ℤ) < (testCfg.ROWS : ℤ)) ∧
      testEnv.grid.getD (gIdx testCfg 0 1) 0 = 1 ∧
      ((terrain.dig testCfg testEnv 0 1).1.grid.getD (gIdx testCfg 0 1) 0 = 0 ∧
        (terrain.dig testCfg testEnv 0 1).1.totalDug = testEnv.totalDug + 1 ∧
        (terrain.dig testCfg testEnv 0 1).2 = 1) := by
  refine ⟨by decide, by decide, ?_⟩
  exact (dig_hardness_cases testCfg testEnv 0 1 (by decide) (by decide) (by decide)
    (by decide)).1 (by decide)

/-! ## C1: the serialize/deserialize round trip -/

lemma jsOrNat_self_zero (n : Nat) : jsOrNat n 0 = n := by
  unfold jsOrNat
  split <;> omega

lemma jsOrNat_of_pos {n : Nat} (d : Nat) (h : 1 ≤ n) : jsOrNat n d = n := by
  unfold jsOrNat
  split <;> omega

/-- One decoded pheromone cell is within the sparse threshold `0.003` of
the original (round to 4 decimals if above the threshold, dropped to 0
otherwise). -/
lemma ph_roundtrip_bound (m : List ℚ) (defaultLen i : Nat)
    (hi : i < m.length) (h0 : 0 ≤ m.getD i 0) :
    |(sparseDecode (sparseEncode m) defaultLen).getD i 0 - m.getD i 0| ≤ 3 / 1000 := by
  rw [sparse_roundtrip_point m defaultLen i hi]
  split
  · calc |roundTo 4 (m.getD i 0) - m.getD i 0| ≤ 1 / (2 * 10 ^ 4) :=
      roundTo_abs_sub_le 4 _
    _ ≤ 3 / 1000 := by norm_num
  · rw [zero_sub, abs_neg, abs_of_nonneg h0]
    linarith [not_lt.mp (by assumption : ¬ 3 / 1000 < m.getD i 0)]

/-- Rebuilding an ant from its serialized record restores the id and
state exactly, and the position to the serializer's 1-decimal rounding. -/
lemma deserAnt_serAnt_fields (r : AntRnd) (id : Nat) (a : Ant) :
    (colony.deserAnt r id (colony.serAnt a)).id = a.id ∧
      (colony.deserAnt r id (colony.serAnt a)).state = a.state ∧
      (colony.deserAnt r id (colony.serAnt a)).x = roundTo 1 a.x ∧
      (colony.deserAnt r id (colony.serAnt a)).y = roundTo 1 a.y :=
  ⟨rfl, rfl, rfl, rfl⟩

/-- An all-zero record of `Math.random()` draws for `ant.create`. -/
def zeroRnd : AntRnd :=
  { energyR := 0, maxSandR := 0, headingR := 0, meanderPhaseR := 0,
    meanderFreqR := 0, sizeR := 0, hueR := 0, legTR := 0, antTR := 0 }

/-- C1 counterexample fixture: an ant whose `x` is not a multiple of 0.1,
so `toFixed(1)` in the serializer moves it. -/
def cexPosAnt : Ant := { testAnt with x := 5/4 }

/-- A one-ant colony around `cexPosAnt`. -/
def cexPosState : AFState :=
  { toEnv := testEnv, ants := [cexPosAnt], hasQueen := false }

/-- Counterexample to C1 as stated: positions are NOT reproduced exactly.
`serialize` writes `x` through `toFixed(1)`, so an ant at `x = 1.25` comes
back at `x = 1.3` after `deserialize(serialize(colony))`. -/
theorem serialize_roundtrip_counterexample :
    ((colony.deserialize testCfg (fun _ => zeroRnd) 1
        (colony.serialize cexPosState 2)).ants.getD 0 default).x ≠
      (cexPosState.ants.getD 0 default).x := by
  have hL : ((colony.deserialize testCfg (fun _ => zeroRnd) 1
      (colony.serialize cexPosState 2)).ants.getD 0 default).x
      = roundTo 1 (5/4) := rfl
  have hR : (cexPosState.ants.getD 0 default).x = 5/4 := rfl
  rw [hL, hR]
  have hround : roundTo 1 (5/4 : ℚ) = 13/10 := by
    unfold roundTo
    rw [round_eq]
    norm_num
  rw [hround]
  norm_num

/-- C1 (amended): for every colony state (with byte-valued grid cells and
a started day counter, as every reachable state has, and nonnegative
pheromone fields), `deserialize(serialize(colony))` reproduces the
terrain grid byte-for-byte, every agent's id and state exactly, and the
counters `frame`, `totalDug` and `simDay` exactly; agent positions are
reproduced to the serializer's `toFixed(1)` rounding (a tenth of a cell),
and every pheromone cell to within the sparse encoding's drop threshold
`0.003`. -/
theorem serialize_roundtrip (cfg : Cfg) (rnds : Nat → AntRnd)
    (curNextId nextId : Nat) (s : AFState)
    (hgrid : ∀ b ∈ s.grid, b < 256) (hday : 1 ≤ s.simDay)
    (htr : ∀ v ∈ s.phTrail, 0 ≤ v) (hfo : ∀ v ∈ s.phFood, 0 ≤ v)
    (hdi : ∀ v ∈ s.phDig, 0 ≤ v) :
    (colony.deserialize cfg rnds curNextId (colony.serialize s nextId)).grid = s.grid ∧
      (colony.deserialize cfg rnds curNextId (colony.serialize s nextId)).frame = s.frame ∧
      (colony.deserialize cfg rnds curNextId (colony.serialize s nextId)).totalDug = s.totalDug ∧
      (colony.deserialize cfg rnds curNextId (colony.serialize s nextId)).simDay = s.simDay ∧
      (colony.deserialize cfg rnds curNextId (colony.serialize s nextId)).ants.length
        = s.ants.length ∧
      (∀ i, i < s.ants.length →
        ((colony.deserialize cfg rnds curNextId
            (colony.serialize s nextId)).ants.getD i default).id
          = (s.ants.getD i default).id ∧
        ((colony.deserialize cfg rnds curNextId
            (colony.serialize s nextId)).ants.getD i default).state
          = (s.ants.getD i default).state ∧
        ((colony.deserialize cfg rnds curNextId
            (colony.serialize s nextId)).ants.getD i default).x
          = roundTo 1 (s.ants.getD i default).x ∧
        ((colony.deserialize cfg rnds curNextId
            (colony.serialize s nextId)).ants.getD i default).y
          = roundTo 1 (s.ants.getD i default).y) ∧
      (∀ i, i < s.phTrail.length →
        |(colony.deserialize cfg rnds curNextId
            (colony.serialize s nextId)).phTrail.getD i 0 - s.phTrail.getD i 0| ≤ 3 / 1000) ∧
      (∀ i, i < s.phFood.length →
        |(colony.deserialize cfg rnds curNextId
            (colony.serialize s nextId)).phFood.getD i 0 - s.phFood.getD i 0| ≤ 3 / 1000) ∧
      (∀ i, i < s.phDig.length →
        |(colony.deserialize cfg rnds curNextId
            (colony.serialize s nextId)).phDig.getD i 0 - s.phDig.getD i 0| ≤ 3 / 1000) := by
  simp only [colony.deserialize, colony.serialize]
  refine ⟨b64_roundtrip s.grid hgrid, jsOrNat_self_zero _, jsOrNat_self_zero _,
    jsOrNat_of_pos 1 hday, by simp, ?_, ?_, ?_, ?_⟩
  · intro i hi
    have hL : i < ((s.ants.map colony.serAnt).enum.map
        (fun p => colony.deserAnt (rnds p.1) (jsOrNat nextId curNextId + p.1) p.2)).length := by
      simpa using hi
    rw [List.getD_eq_getElem _ _ hL, List.getD_eq_getElem _ _ hi]
    simp only [List.getElem_map, List.getElem_enum]
    exact deserAnt_serAnt_fields _ _ _
  · intro i hi
    refine ph_roundtrip_bound _ _ i hi ?_
    rw [List.getD_eq_getElem _ _ hi]
    exact htr _ (List.getElem_mem hi)
  · intro i hi
    refine ph_roundtrip_bound _ _ i hi ?_
    rw [List.getD_eq_getElem _ _ hi]
    exact hfo _ (List.getElem_mem hi)
  · intro i hi
    refine ph_roundtrip_bound _ _ i hi ?_
    rw [List.getD_eq_getElem _ _ hi]
    exact hdi _ (List.getElem_mem hi)

/-- Witness for C1 at the concrete two-ant test colony: the hypotheses
hold there, and the round trip restores the grid byte-for-byte. -/
theorem serialize_roundtrip_witness :
    ((∀ b ∈ testState.grid, b < 256) ∧ 1 ≤ testState.simDay ∧
        (∀ v ∈ testState.phTrail, 0 ≤ v) ∧ (∀ v ∈ testState.phFood, 0 ≤ v) ∧
        (∀ v ∈ testState.phDig, 0 ≤ v)) ∧
      (colony.deserialize testCfg (fun _ => zeroRnd) 1
          (colony.serialize testState 3)).grid = testState.grid :=
  ⟨⟨by decide, by decide,
      fun v hv => (testEnv_phTrail_range v hv).1,
      fun v hv => (testEnv_phFood_range v hv).1,
      fun v hv => (testEnv_phDig_range v hv).1⟩,
    (serialize_roundtrip testCfg (fun _ => zeroRnd) 1 3 testState
        (by decide) (by decide)
        (fun v hv => (testEnv_phTrail_range v hv).1)
        (fun v hv => (testEnv_phFood_range v hv).1)
        (fun v hv => (testEnv_phDig_range v hv).1)).1⟩

end Antfarm
